import Mathlib

/-!
Verification of the topology-agent orchestrator against its specification.

The Python sources are shallowly embedded: dictionaries of the request
state become a record of optional JSON values, JSON data becomes an
inductive `Json` type, exceptions become `Except String`, and external
effects (LLM calls, database sessions, the random module, the clock)
become explicit oracle parameters.  Each embedded definition mirrors one
function of the repository and is named after it.
-/

namespace TopologyAgent

/-- JSON values, the runtime data of plans, tool envelopes and UI payloads.
Numbers are modelled as integers (the program only produces integral
numbers in the fields the claims mention). -/
inductive Json where
  | null
  | bool (b : Bool)
  | num (n : Int)
  | str (s : String)
  | arr (xs : List Json)
  | obj (kvs : List (String × Json))
deriving Repr, Inhabited

/-- Hashable Python dict keys (lists and dicts are unhashable and raise). -/
inductive HKey where
  | null
  | bool (b : Bool)
  | num (n : Int)
  | str (s : String)
deriving Repr, DecidableEq, Inhabited

/-- Conversion of a JSON value to a dict key; `none` models the `TypeError`
Python raises on unhashable keys (lists, dicts). -/
def Json.toKey : Json → Option HKey
  | .null => some .null
  | .bool b => some (.bool b)
  | .num n => some (.num n)
  | .str s => some (.str s)
  | .arr _ => none
  | .obj _ => none

/-- Python truthiness of a value (`if x:` / `x or y`). -/
def Json.truthy : Json → Bool
  | .null => false
  | .bool b => b
  | .num n => n != 0
  | .str s => s ≠ ""
  | .arr xs => !xs.isEmpty
  | .obj kvs => !kvs.isEmpty

/-- First binding of a key in an object; `none` when the key is absent
or the value is not an object. -/
def Json.lookup (j : Json) (k : String) : Option Json :=
  match j with
  | .obj kvs => (kvs.find? (fun p => p.1 == k)).map (·.2)
  | _ => none

/-- `d.get(k, default)` on a dict; errors when the receiver is not a dict,
as the Python attribute access would. -/
def Json.getD (j : Json) (k : String) (d : Json) : Except String Json :=
  match j with
  | .obj kvs => .ok (((kvs.find? (fun p => p.1 == k)).map (·.2)).getD d)
  | _ => .error "AttributeError: get on non-dict"

/-- `d.get(k)` with default `None`. -/
def Json.getN (j : Json) (k : String) : Except String Json :=
  j.getD k .null

/-- `d[k] = v`: replace the first binding of `k`, or append it. -/
def Json.setKey : Json → String → Json → Json
  | .obj kvs, k, v => .obj (go kvs k v)
  | j, _, _ => j
where
  go : List (String × Json) → String → Json → List (String × Json)
    | [], k, v => [(k, v)]
    | (k', v') :: rest, k, v =>
        if k' == k then (k, v) :: rest else (k', v') :: go rest k v

/-- `k in d` for a dict. -/
def Json.hasKey (j : Json) (k : String) : Bool :=
  match j with
  | .obj kvs => kvs.any (fun p => p.1 == k)
  | _ => false

/-- Python `str.strip()` whitespace set (ASCII part). -/
def isPyWs (c : Char) : Bool :=
  c == ' ' || c == '\t' || c == '\n' || c == '\x0d' ||
  c == Char.ofNat 11 || c == Char.ofNat 12

/-- `s.strip()`. -/
def pyStrip (s : String) : String :=
  ⟨((s.data.dropWhile isPyWs).reverse.dropWhile isPyWs).reverse⟩

/-- `s.split("\n", 1)[-1]`: everything after the first newline, or the
whole string when there is none. -/
def afterFirstNewline (s : String) : String :=
  match s.data.splitOn '\n' with
  | [] => s
  | [_] => s
  | _ :: rest => ⟨(rest.intersperse ['\n']).flatten⟩

/-- `s.rsplit("\n", 1)[0]`: everything before the last newline, or the
whole string when there is none. -/
def beforeLastNewline (s : String) : String :=
  match (s.data.reverse.splitOn '\n') with
  | [] => s
  | [_] => s
  | _ :: rest => ⟨((rest.intersperse ['\n']).flatten).reverse⟩

/-- `s.startswith(p)`. -/
def pyStartsWith (s p : String) : Bool := p.data.isPrefixOf s.data

/-- `s.endswith(p)`. -/
def pyEndsWith (s p : String) : Bool := p.data.reverse.isPrefixOf s.data.reverse

/-- The mutable `TopologyState` dict (`src/orchestrator/state_types.py`).
`TypedDict(total=False)`: every key may be absent; `none` models both an
absent key and, for the tool slots, an explicit `None` value (the two are
indistinguishable through the `state.get(...)` accesses the nodes use). -/
structure RState where
  user_input : Option Json := none
  ui_context : Option Json := none
  session_id : Option Json := none
  request_id : Option Json := none
  history : Option Json := none
  semantic_memory : Option Json := none
  retry_count : Option Json := none
  max_retries : Option Json := none
  plan : Option Json := none
  plan_raw : Option Json := none
  planning_error : Option Json := none
  topology_data : Option Json := none
  inventory_data : Option Json := none
  comment_data : Option Json := none
  memory_data : Option Json := none
  outage_data : Option Json := none
  hierarchy_data : Option Json := none
  validation : Option Json := none
  ui_response : Option Json := none
  partialFlag : Option Json := none
deriving Repr, Inhabited

/-- `state.get(key) or {}`: absent keys, `None` and falsy values all give
the empty dict. -/
def orEmptyObj (o : Option Json) : Json :=
  match o with
  | none => .obj []
  | some j => if j.truthy then j else .obj []

/-- `state.get(key) or []`. -/
def orEmptyArr (o : Option Json) : Json :=
  match o with
  | none => .arr []
  | some j => if j.truthy then j else .arr []

/-! ## Planner (`src/orchestrator/planner_node.py`) -/

/-- `_fallback_plan`: the deterministic plan used when planning fails.
The Prometheus counter increment is a no-op here; `user_input` is read
with `state.get("user_input", "")`. -/
def fallback_plan (state : RState) : Json :=
  let user_input := state.user_input.getD (.str "")
  .obj [
    ("strategy", .str "fallback_simple"),
    ("description", .str "Fallback: call all tools once and correlate results."),
    ("steps", .arr [
      .obj [("id", .str "step_topology"), ("tool", .str "topology_tool"),
            ("params", .obj [])],
      .obj [("id", .str "step_inventory"), ("tool", .str "inventory_tool"),
            ("params", .obj [])],
      .obj [("id", .str "step_comments"), ("tool", .str "comment_tool"),
            ("params", .obj [])],
      .obj [("id", .str "step_memory"), ("tool", .str "memory_tool"),
            ("params", .obj [])],
      .obj [("id", .str "step_hierarchy"), ("tool", .str "hierarchy_tool"),
            ("params", .obj [])]]),
    ("metadata", .obj [
      ("from_user_input", user_input),
      ("fallback_reason", .str "llm_planner_failed_or_invalid_json")])]

/-- `d.setdefault(k, v)` (returning the updated dict). -/
def Json.setDefaultKey (j : Json) (k : String) (v : Json) : Json :=
  if j.hasKey k then j else j.setKey k v

/-- The per-step loop of `_parse_plan_from_llm_output`: each step must be
a dict carrying `tool`; `id` defaults to `step_<index>` and `params` to
`{}`.  An invalid step reports its index. -/
def fix_steps (idx : Nat) : List Json → Except Nat (List Json)
  | [] => .ok []
  | s :: rest =>
      let bad := match s with
        | .obj _ => !s.hasKey "tool"
        | _ => true
      if bad then .error idx
      else
        let s' := (s.setDefaultKey "id" (.str ("step_" ++ toString idx))).setDefaultKey
          "params" (.obj [])
        (fix_steps (idx + 1) rest).map (s' :: ·)

/-- The fence-cleaning prelude of `_parse_plan_from_llm_output`:
strip, drop an opening code fence line, drop a closing fence line. -/
def cleaned_llm_text (rawText : String) : String :=
  let c0 := pyStrip rawText
  if pyStartsWith c0 "```" then
    let c1 := afterFirstNewline c0
    if pyEndsWith c1 "```" then beforeLastNewline c1 else c1
  else c0

/-- `_parse_plan_from_llm_output`.  `loads` is the `json.loads` oracle
(`none` models a parse exception; the exception text of the Python
message is not modelled).  Returns the plan together with the value
written to `state["planning_error"]` (`none` when the function leaves
that key untouched). -/
def parse_plan_from_llm_output (loads : String → Option Json) (rawText : String)
    (state : RState) : Json × Option String :=
  match loads (cleaned_llm_text rawText) with
  | none => (fallback_plan state, some "JSON parse error")
  | some data =>
      let okShape := match data with
        | .obj _ => data.hasKey "steps"
        | _ => false
      if !okShape then
        (fallback_plan state, some "Planner LLM output missing 'steps'.")
      else
        match (data.getD "steps" (.arr [])).toOption.getD .null with
        | .arr steps =>
            if steps.isEmpty then
              (fallback_plan state, some "Planner LLM 'steps' must be a non-empty list.")
            else
              match fix_steps 0 steps with
              | .error idx =>
                  (fallback_plan state, some ("Invalid step at index " ++ toString idx ++ "."))
              | .ok steps' => (data.setKey "steps" (.arr steps'), none)
        | _ => (fallback_plan state, some "Planner LLM 'steps' must be a non-empty list.")

/-- The input dict built for the planner chain. -/
structure PlannerIn where
  question : String
  ui_context : Json
  history : Json
  memory_snippets : Json
  previous_plan : Json
  validation_feedback : Json
deriving Repr

/-- `question = state.get("user_input", "") or ""` followed by the later
`.strip()` call: errors when the stored value is not a string, as the
attribute access would. -/
def question_of (state : RState) : Except String String :=
  let q0 := state.user_input.getD (.str "")
  let q0 := if q0.truthy then q0 else .str ""
  match q0 with
  | .str q => .ok q
  | _ => .error "AttributeError: strip on non-str"

/-- `planner_node`.  `chain` is the `get_planner_chain` oracle (an error
models an unavailable backend raising at handle creation, which the node
re-raises); the chain itself is the model-invoke oracle.  `loads` is the
`json.loads` oracle. -/
def planner_node (chain : Except String (PlannerIn → Except String String))
    (loads : String → Option Json) (state : RState) : Except String RState := do
  let question ← question_of state
  let ui_context := orEmptyObj state.ui_context
  let history := orEmptyArr state.history
  let memory_snippets := orEmptyArr state.semantic_memory
  let previous_plan := orEmptyObj state.plan
  let validation_feedback := orEmptyObj state.validation
  if pyStrip question = "" then
    -- Degenerate case: fallback plan, empty raw text, immediate return.
    return { state with plan := some (fallback_plan state), plan_raw := some (.str "") }
  let invoke ← chain
  match invoke ⟨question, ui_context, history, memory_snippets,
                previous_plan, validation_feedback⟩ with
  | .error e =>
      return { state with plan := some (fallback_plan state),
                          plan_raw := some (.str ""),
                          planning_error := some (.str ("Planner LLM invoke error: " ++ e)) }
  | .ok rawText =>
      let state1 := { state with plan_raw := some (.str rawText) }
      let (plan, perr) := parse_plan_from_llm_output loads rawText state1
      let state2 := { state1 with plan := some plan,
                                  planning_error :=
                                    match perr with
                                    | some e => some (.str e)
                                    | none => state1.planning_error }
      -- The debug print `state["planning_error"]` raises KeyError when the
      -- key was never written.
      match state2.planning_error with
      | none => .error "KeyError: planning_error"
      | some _ => return state2

/-- The tools named by a plan's steps, in order. -/
def stepTools (p : Json) : List String :=
  match p.lookup "steps" with
  | some (.arr xs) =>
      xs.filterMap (fun s =>
        match s.lookup "tool" with
        | some (.str t) => some t
        | _ => none)
  | _ => []

/-- The exact condition under which `_parse_plan_from_llm_output` abandons
the model output: parse failure, non-dict output, missing `steps`,
`steps` not a list or empty, or a step that is not a dict carrying
`tool`. -/
def parseFailure (loads : String → Option Json) (raw : String) : Bool :=
  match loads (cleaned_llm_text raw) with
  | none => true
  | some data =>
      let okShape := match data with
        | .obj _ => data.hasKey "steps"
        | _ => false
      if !okShape then true
      else
        match (data.getD "steps" (.arr [])).toOption.getD .null with
        | .arr steps =>
            if steps.isEmpty then true
            else
              match fix_steps 0 steps with
              | .error _ => true
              | .ok _ => false
        | _ => true

/-- A `json.loads` oracle returning a parsed plan whose single step names
a tool outside the closed ToolSet. -/
def loadsBogusPlan : String → Option Json := fun _ =>
  some (.obj [("strategy", .str "custom"),
              ("steps", .arr [.obj [("tool", .str "reboot_tool")]])])

/-- The six tools of the spec's closed ToolSet. -/
def specToolSet : List String :=
  ["topology_tool", "inventory_tool", "outage_tool", "comments_search_tool",
   "hierarchy_tool", "memory_search_tool"]

/-! ## Circuit breaker (`src/orchestrator/circuit_breaker.py`) -/

/-- Association-list helpers standing in for Python dicts. -/
def alistFind {κ α : Type} [BEq κ] (m : List (κ × α)) (k : κ) : Option α :=
  (m.find? (fun p => p.1 == k)).map (·.2)

/-- `d[k] = v`: replace the binding or append it. -/
def alistPut {κ α : Type} [BEq κ] : List (κ × α) → κ → α → List (κ × α)
  | [], k, v => [(k, v)]
  | (k', v') :: rest, k, v =>
      if k' == k then (k, v) :: rest else (k', v') :: alistPut rest k v

/-- `del d[k]` (dict keys are unique, so erasing the first binding). -/
def alistErase {κ α : Type} [BEq κ] : List (κ × α) → κ → List (κ × α)
  | [], _ => []
  | (k', v') :: rest, k => if k' == k then rest else (k', v') :: alistErase rest k

/-- `k in d`. -/
def alistHas {κ α : Type} [BEq κ] (m : List (κ × α)) (k : κ) : Bool :=
  (alistFind m k).isSome

/-- `CircuitBreaker`: per-tool failure counts and trip timestamps.  The
clock (`time.time()`) is an explicit argument of the methods that read
it; the internal thread lock serializes access and needs no model. -/
structure CircuitBreaker where
  failure_threshold : Int := 5
  recovery_timeout : Int := 60
  failures : List (String × Int) := []
  tripped_at : List (String × Int) := []
deriving Repr, DecidableEq

/-- `CircuitBreaker.is_open`: blocked while inside the recovery window;
after it, the trip record is deleted and the failure count reset to
`failure_threshold - 1` so that a single trial is admitted.  Returns the
verdict together with the possibly updated breaker. -/
def CircuitBreaker.is_open (cb : CircuitBreaker) (now : Int) (tool_name : String) :
    Bool × CircuitBreaker :=
  match alistFind cb.tripped_at tool_name with
  | none => (false, cb)
  | some tripped_time =>
      if now - tripped_time > cb.recovery_timeout then
        (false, { cb with
                  tripped_at := alistErase cb.tripped_at tool_name,
                  failures := alistPut cb.failures tool_name (cb.failure_threshold - 1) })
      else (true, cb)

/-- `CircuitBreaker.record_failure`. -/
def CircuitBreaker.record_failure (cb : CircuitBreaker) (now : Int) (tool_name : String) :
    CircuitBreaker :=
  let f := (alistFind cb.failures tool_name).getD 0 + 1
  let cb' := { cb with failures := alistPut cb.failures tool_name f }
  if f ≥ cb.failure_threshold then
    { cb' with tripped_at := alistPut cb'.tripped_at tool_name now }
  else cb'

/-- `CircuitBreaker.record_success`. -/
def CircuitBreaker.record_success (cb : CircuitBreaker) (tool_name : String) :
    CircuitBreaker :=
  let cb' := if alistHas cb.failures tool_name then
               { cb with failures := alistPut cb.failures tool_name 0 }
             else cb
  if alistHas cb'.tripped_at tool_name then
    { cb' with tripped_at := alistErase cb'.tripped_at tool_name }
  else cb'

/-- The process-wide singleton `tool_circuit_breaker`. -/
def tool_circuit_breaker : CircuitBreaker := {}

/-! ## Python data-access helpers -/

/-- `len(x)`: defined for lists, strings and dicts, raises otherwise. -/
def pyLen (j : Json) : Except String Nat :=
  match j with
  | .arr xs => .ok xs.length
  | .str s => .ok s.length
  | .obj kvs => .ok kvs.length
  | _ => .error "TypeError: object has no len()"

/-- `x[i]` for a non-negative index. -/
def pyIndex (j : Json) (i : Nat) : Except String Json :=
  match j with
  | .arr xs => match xs[i]? with
      | some v => .ok v
      | none => .error "IndexError: list index out of range"
  | .str s => match s.data[i]? with
      | some c => .ok (.str ⟨[c]⟩)
      | none => .error "IndexError: string index out of range"
  | _ => .error "TypeError: object is not subscriptable"

/-- `str(x)` as used inside f-strings.  Container reprs are abbreviated:
no claim depends on them. -/
def pyStr (j : Json) : String :=
  match j with
  | .str s => s
  | .num n => toString n
  | .bool true => "True"
  | .bool false => "False"
  | .null => "None"
  | .arr _ => "[...]"
  | .obj _ => "{...}"

/-- `list(set(xs))` for hashable elements, modelled as first-occurrence
dedup (CPython's set iteration order is unspecified); unhashable
elements raise. -/
def pyDedup (xs : List Json) : Except String (List Json) :=
  go xs []
where
  go : List Json → List HKey → Except String (List Json)
    | [], _ => .ok []
    | x :: rest, seen =>
        match x.toKey with
        | none => .error "TypeError: unhashable type"
        | some k =>
            if seen.contains k then go rest seen
            else (go rest (k :: seen)).map (x :: ·)

/-- Iterating a JSON value with `for`: only lists are modelled (iterating
a string or dict either yields scalars on which the subsequent attribute
access raises, or is empty — both end in the surrounding behaviour for
the states the workflow produces). -/
def pyIter (j : Json) : Except String (List Json) :=
  match j with
  | .arr xs => .ok xs
  | _ => .error "TypeError: object is not iterable"

/-! ## Tool adapters -/

/-- `for step in steps` semantics shared by the executor and the tools:
lists iterate, the empty dict and empty string iterate zero times, and
every other value raises (non-empty strings and dicts yield scalars on
which the loop body's `step.get` raises at once). -/
def iterSteps (steps : Json) : Except String (List Json) :=
  match steps with
  | .arr ss => .ok ss
  | .obj [] => .ok []
  | .str "" => .ok []
  | _ => .error "TypeError: steps is not iterable"

/-- The step-param extraction common to the tools: first step whose
`tool` equals the given name supplies `params` (default `{}`). -/
def params_for_tool (steps : List Json) (name : String) : Except String Json := do
  match ← find_step steps name with
  | some step => step.getD "params" (.obj [])
  | none => .ok (.obj [])
where
  find_step : List Json → String → Except String (Option Json)
    | [], _ => .ok none
    | step :: rest, name => do
        match ← step.getN "tool" with
        | .str t => if t == name then .ok (some step) else find_step rest name
        | _ => find_step rest name

/-- The `$ref` resolution of `run_outage_tool` for `circuit_ids`: a
string starting with `$ref` is replaced by the truthy `circuit_id`s of
`state["inventory_data"]["circuits"]`, whatever step and field the token
names. -/
def resolve_outage_circuit_ids (state : RState) (circuit_ids : Json) :
    Except String Json :=
  match circuit_ids with
  | .str s =>
      if pyStartsWith s "$ref" then do
        let inventory_data := orEmptyObj state.inventory_data
        let circuits ← inventory_data.getD "circuits" (.arr [])
        let cs ← pyIter circuits
        let ids ← cs.mapM (fun c => c.getN "circuit_id")
        return .arr (ids.filter (·.truthy))
      else .ok (.str s)
  | v => .ok v

/-- The `$ref` resolution of `run_outage_tool` for `device_ids`: a
`$ref` string becomes the empty list. -/
def resolve_outage_device_ids (circuit_like : Json) : Json :=
  match circuit_like with
  | .str s => if pyStartsWith s "$ref" then .arr [] else .str s
  | v => v

/-- The `$ref` resolution of `run_inventory_tool` for `device_ids`: a
`$ref` string is replaced by the deduplicated union of the `hops` of
`state["topology_data"]["paths"]`, regardless of the token's step id and
field. -/
def resolve_inventory_device_ids (state : RState) (device_ids : Json) :
    Except String Json :=
  match device_ids with
  | .str s =>
      if pyStartsWith s "$ref" then do
        let topology_data := orEmptyObj state.topology_data
        let paths ← topology_data.getD "paths" (.arr [])
        let ps ← pyIter paths
        let hopss ← ps.mapM (fun p => do pyIter (← p.getD "hops" (.arr [])))
        let devs ← pyDedup hopss.flatten
        return .arr devs
      else .ok (.str s)
  | v => .ok v

/-- The `$ref` resolution of `run_inventory_tool` for `circuit_ids`: a
`$ref` string becomes the empty list. -/
def resolve_inventory_circuit_ids (circuit_ids : Json) : Json :=
  match circuit_ids with
  | .str s => if pyStartsWith s "$ref" then .arr [] else .str s
  | v => v

/-- Randomness oracle for `run_outage_tool`: one stream of draws, one
counter per call of the `random` module.  `chance k` is the verdict of
the k-th `random.random() < p` test; `draw k` feeds `randint` and
`choice`. -/
structure Rng where
  chance : Nat → Bool
  draw : Nat → Nat

/-- `random.choice(xs)` via a draw. -/
def rngChoice (d : Nat) (xs : List String) : String :=
  (xs[d % xs.length]?).getD ""

/-- The alarm-generation loops of `run_outage_tool`: one pass over
circuits (p=0.3, prefix ALM-CIR, type outage), devices (p=0.2, ALM-DEV,
hardware) and sites (p=0.1, ALM-SITE, facility). -/
def gen_alarms (rng : Rng) (n0 : Nat) (ids : List Json) (p : String)
    (etype : String) (atype : String) (msgPool : List String) :
    List Json × Nat :=
  match ids with
  | [] => ([], n0)
  | x :: rest =>
      if rng.chance n0 then
        let alarm : Json := .obj [
          ("alarm_id", .str (p ++ toString (rng.draw (n0 + 1)))),
          ("element_id", x),
          ("element_type", .str etype),
          ("type", .str atype),
          ("severity", .str (rngChoice (rng.draw (n0 + 2)) ["minor", "major", "critical"])),
          ("message", .str (rngChoice (rng.draw (n0 + 3)) msgPool)),
          ("timestamp", .str "2026-02-24T14:00:00Z")]
        let (more, n') := gen_alarms rng (n0 + 4) rest p etype atype msgPool
        (alarm :: more, n')
      else gen_alarms rng (n0 + 1) rest p etype atype msgPool

/-- The site pass of `run_outage_tool` (fixed message, p=0.1). -/
def gen_site_alarms (rng : Rng) (n0 : Nat) (ids : List Json) :
    List Json × Nat :=
  match ids with
  | [] => ([], n0)
  | x :: rest =>
      if rng.chance n0 then
        let alarm : Json := .obj [
          ("alarm_id", .str ("ALM-SITE-" ++ toString (rng.draw (n0 + 1)))),
          ("element_id", x),
          ("element_type", .str "site"),
          ("type", .str "facility"),
          ("severity", .str (rngChoice (rng.draw (n0 + 2)) ["minor", "major", "critical"])),
          ("message", .str "Power fluctuation detected at site"),
          ("timestamp", .str "2026-02-24T14:00:00Z")]
        let (more, n') := gen_site_alarms rng (n0 + 3) rest
        (alarm :: more, n')
      else gen_site_alarms rng (n0 + 1) rest

/-- The message pool of the circuit/device passes. -/
def outage_messages : List String :=
  ["Signal pulse anomaly detected", "Loss of signal (LOS)",
   "High latency threshold exceeded", "Hardware fan failure", "BGP peering down"]

/-- `run_outage_tool` (`src/orchestrator/outage_tool.py`).  Returns the
envelope together with the `logger.warning` messages emitted (the
missing-args branch is the only warning in the function). -/
def run_outage_tool (rng : Rng) (state : RState) :
    Except String (Json × List String) := do
  let plan := state.plan.getD (.obj [])
  let steps ← plan.getD "steps" (.arr [])
  let stepList ← iterSteps steps
  let params ← params_for_tool stepList "outage_tool"
  let site_names0 ← params.getD "site_names" (.arr [])
  let device_ids0 ← params.getD "device_ids" (.arr [])
  let circuit_ids0 ← params.getD "circuit_ids" (.arr [])
  let circuit_ids ← resolve_outage_circuit_ids state circuit_ids0
  let device_ids := resolve_outage_device_ids device_ids0
  -- UI Context fallback if nothing was derived
  let site_names ←
    if !site_names0.truthy && !device_ids.truthy && !circuit_ids.truthy then do
      let ui_context := orEmptyObj state.ui_context
      ui_context.getD "selected_sites" (.arr [])
    else pure site_names0
  if !site_names.truthy && !device_ids.truthy && !circuit_ids.truthy then
    return (.obj [
      ("active_alarms", .arr []),
      ("metadata", .obj [
        ("source", .str "outage_tool"),
        ("error", .str "Missing input arguments. At least one of site, device, or circuit must be provided.")])],
      ["outage_tool_missing_args"])
  let cids ← pyIter circuit_ids
  let dids ← pyIter device_ids
  let sids ← pyIter site_names
  let (circuitAlarms, n1) := gen_alarms rng 0 cids "ALM-CIR-" "circuit" "outage" outage_messages
  let (deviceAlarms, n2) := gen_alarms rng n1 dids "ALM-DEV-" "device" "hardware" outage_messages
  let (siteAlarms, n3) := gen_site_alarms rng n2 sids
  let alarms := circuitAlarms ++ deviceAlarms ++ siteAlarms
  -- Guaranteed alarm when the query named sites but nothing fired
  let alarms :=
    if alarms.isEmpty && !sids.isEmpty then
      [Json.obj [
        ("alarm_id", .str ("ALM-SITE-" ++ toString (rng.draw n3))),
        ("element_id", sids.headI),
        ("element_type", .str "site"),
        ("type", .str "network"),
        ("severity", .str "minor"),
        ("message", .str "Transient interface flapping detected in aggregation layer"),
        ("timestamp", .str "2026-02-24T14:00:00Z")]]
    else alarms
  return (.obj [
    ("active_alarms", .arr alarms),
    ("metadata", .obj [
      ("source", .str "outage_tool_stub"),
      ("num_alarms", .num alarms.length),
      ("elements_checked", .obj [
        ("sites", .num sids.length),
        ("devices", .num dids.length),
        ("circuits", .num cids.length)])])],
    [])

/-- Database oracle for `run_inventory_tool`: session acquisition and the
two `inventory_client` queries; errors model raised exceptions, which
the tool does not catch. -/
structure DbEnv where
  session : Except String Unit
  get_circuits_by_sites : Json → Json → Json → Except String (List Json)
  get_sites_by_ids : List Json → Except String (List Json)

/-- `run_inventory_tool` (`src/orchestrator/inventory_tool.py`). -/
def run_inventory_tool (db : DbEnv) (state : RState) : Except String Json := do
  let plan := state.plan.getD (.obj [])
  let steps ← plan.getD "steps" (.arr [])
  let stepList ← iterSteps steps
  let params ← params_for_tool stepList "inventory_tool"
  let ui_context := orEmptyObj state.ui_context
  let site_names0 ← params.getD "site_names" (.arr [])
  let device_ids0 ← params.getD "device_ids" (.arr [])
  let circuit_ids0 ← params.getD "circuit_ids" (.arr [])
  let layer0 ← params.getN "layer"
  let layer ← if layer0.truthy then pure layer0 else ui_context.getN "layer"
  let device_ids ← resolve_inventory_device_ids state device_ids0
  let circuit_ids := resolve_inventory_circuit_ids circuit_ids0
  let site_names ←
    if !site_names0.truthy then ui_context.getD "selected_sites" (.arr [])
    else pure site_names0
  let nSites ← pyLen site_names
  if nSites < 2 && !device_ids.truthy && !circuit_ids.truthy then
    return .obj [
      ("circuits", .arr []),
      ("sites", .arr []),
      ("metadata", .obj [
        ("source", .str "inventory_tool"),
        ("reason", .str "insufficient site_names in ui_context or plan")])]
  let src_site ← if nSites ≥ 1 then pyIndex site_names 0 else pure .null
  let dst_site ← if nSites ≥ 2 then pyIndex site_names 1 else pure .null
  let _ ← db.session
  let circuits ←
    if src_site.truthy && dst_site.truthy then
      db.get_circuits_by_sites src_site dst_site layer
    else pure []
  let sitesList ← pyIter site_names
  let site_ids ← pyDedup (sitesList.filter (·.truthy))
  let sites ← if !site_ids.isEmpty then db.get_sites_by_ids site_ids else pure []
  return .obj [
    ("circuits", .arr circuits),
    ("sites", .arr sites),
    ("metadata", .obj [
      ("source", .str "inventory_db"),
      ("src_site", src_site),
      ("dst_site", dst_site),
      ("layer", layer),
      ("num_circuits", .num circuits.length)])]

/-- `run_topology_tool` (`src/orchestrator/topology_tool.py`).  The graph
client is an optional oracle from Cypher parameters to records; its
errors are caught and turned into a degraded envelope. -/
def run_topology_tool (graph_client : Option (Json → Except String (List Json)))
    (state : RState) : Except String Json := do
  let user_input := state.user_input.getD (.str "")
  let ui_context := orEmptyObj state.ui_context
  let selected_sites0 ← ui_context.getN "selected_sites"
  let selected_sites := if selected_sites0.truthy then selected_sites0 else .arr []
  let layer0 ← ui_context.getN "layer"
  let layer := if layer0.truthy then layer0 else .str "L2"
  let stub : Json := .obj [
    ("paths", .arr []),
    ("metadata", .obj [
      ("source", .str "topology_tool_stub"),
      ("reason", .str "graph_client not configured or insufficient selected_sites"),
      ("query_summary", .str ("Stub topology result for: " ++ pyStr user_input))])]
  match graph_client with
  | none => return stub
  | some run_cypher => do
      let n ← pyLen selected_sites
      if n < 2 then return stub
      let src_site ← pyIndex selected_sites 0
      let dst_site ← pyIndex selected_sites 1
      match run_cypher (.obj [("src_site", src_site), ("dst_site", dst_site)]) with
      | .error exc =>
          return .obj [
            ("paths", .arr []),
            ("metadata", .obj [
              ("source", .str "topology_tool_graph_error"),
              ("error", .str exc),
              ("query_summary", .str ("Failed to fetch path for " ++ pyStr src_site ++
                " -> " ++ pyStr dst_site))])]
      | .ok records => do
          let paths ← records.foldlM (fun acc rec => do
            let hops0 ← rec.getN "hops"
            let hops := if hops0.truthy then hops0 else .arr []
            match hops with
            | .arr _ =>
                pure (acc ++ [Json.obj [
                  ("src_site", src_site), ("dst_site", dst_site),
                  ("layer", layer), ("hops", hops)]])
            | _ => pure acc) []
          return .obj [
            ("paths", .arr paths),
            ("metadata", .obj [
              ("source", .str "topology_graph_db"),
              ("src_site", src_site),
              ("dst_site", dst_site),
              ("layer", layer),
              ("num_paths", .num paths.length)])]

/-! ## DAG executor (`src/orchestrator/tool_node.py`) -/

/-- The tool environment: the coroutines the dispatch table points to,
external effects already applied.  An `Except.error` models an exception
escaping the tool, which `_run_tool_with_metrics` logs and re-raises. -/
structure ToolEnv where
  run_topology_tool : RState → Except String Json
  run_inventory_tool : RState → Except String Json
  run_comment_tool : RState → Except String Json
  run_outage_tool : RState → Except String Json
  run_memory_tool : RState → Except String Json
  run_hierarchy_tool : RState → Except String Json

/-- Writing a tool's result to its designated state slot. -/
def setSlot (state : RState) (key : String) (v : Option Json) : RState :=
  if key == "topology_data" then { state with topology_data := v }
  else if key == "inventory_data" then { state with inventory_data := v }
  else if key == "comment_data" then { state with comment_data := v }
  else if key == "outage_data" then { state with outage_data := v }
  else if key == "memory_data" then { state with memory_data := v }
  else if key == "hierarchy_data" then { state with hierarchy_data := v }
  else state

/-- The `tool_dispatch` table of `tool_node`, verbatim: note the entries
`comment_tool`/`comments_search_tool` (both mapped to the comment tool)
and `memory_tool`/`hierarchy_tool`. -/
def tool_dispatch (env : ToolEnv) :
    List (String × (RState → Except String Json) × String) :=
  [("topology_tool", env.run_topology_tool, "topology_data"),
   ("inventory_tool", env.run_inventory_tool, "inventory_data"),
   ("comment_tool", env.run_comment_tool, "comment_data"),
   ("comments_search_tool", env.run_comment_tool, "comment_data"),
   ("outage_tool", env.run_outage_tool, "outage_data"),
   ("memory_tool", env.run_memory_tool, "memory_data"),
   ("hierarchy_tool", env.run_hierarchy_tool, "hierarchy_data")]

/-- The step loop of `tool_node`: known tools run in list order on the
current state, their result overwriting the slot; unknown tools are
logged and skipped; a tool exception propagates immediately. -/
def run_steps (env : ToolEnv) : List Json → RState → Except String RState
  | [], state => .ok state
  | step :: rest, state => do
      let tool_name ← step.getN "tool"
      match tool_name with
      | .str name =>
          match alistFind (tool_dispatch env) name with
          | some (func, data_key) => do
              let result ← func state
              run_steps env rest (setSlot state data_key (some result))
          | none => run_steps env rest state
      | _ => run_steps env rest state

/-- `tool_node`: initializes every data slot to `None`, then executes the
plan's steps sequentially.  There is no dependency graph, no cycle
check, no reference to the circuit breaker, and no handler around the
tool calls other than the metrics wrapper that re-raises. -/
def tool_node (env : ToolEnv) (state : RState) : Except String RState := do
  let plan := state.plan.getD (.obj [])
  let steps ← plan.getD "steps" (.arr [])
  let state := { state with
    topology_data := none, inventory_data := none, comment_data := none,
    outage_data := none, memory_data := none, hierarchy_data := none }
  let ss ← iterSteps steps
  run_steps env ss state

/-- The `try/except` around `graph_app.ainvoke` in `topology_query`
(`src/api/topology.py`): an exception escaping the workflow becomes an
HTTP 500, any returned state a 200. -/
def topology_query_status (r : Except String RState) : Nat :=
  match r with
  | .error _ => 500
  | .ok _ => 200

/-! ## Correlator / validator (`src/orchestrator/correlate_validate_node.py`)

`alarms_by_eid` maps element ids to *shared list objects*: the loop
variable `circuit_alarms` aliases the dict entry whenever the circuit id
is a key, so `extend` calls mutate the entry in place.  The embedding
threads the dict explicitly and records, per circuit, whether its
`alarms` field aliases a dict entry (`Sum.inl key`) or is a fresh list
(`Sum.inr`), materializing aliases only after all mutation is done. -/

/-- A hashable JSON value, or the `TypeError` of an unhashable key. -/
def hashKey (j : Json) : Except String HKey :=
  match j.toKey with
  | some k => .ok k
  | none => .error "TypeError: unhashable type"

/-- The alarm index `alarms_by_eid`:
`alarms_by_eid.setdefault(eid, []).append(alarm)` for truthy ids. -/
def index_alarms (alarms : List Json) : Except String (List (HKey × List Json)) :=
  alarms.foldlM (fun m alarm => do
    let eid ← alarm.getN "element_id"
    if eid.truthy then do
      let k ← hashKey eid
      pure (alistPut m k ((alistFind m k).getD [] ++ [alarm]))
    else pure m) []

/-- One iteration of the circuit-enrichment loop.  `circuit_alarms`
starts as the dict entry for `circuit_id` (aliased!) or a fresh list;
each `extend` reads the *current* entry for `src_site`/`dst_site` and,
when aliased, writes the grown list back through the alias. -/
def process_circuit (m : List (HKey × List Json)) (circuit : Json) :
    Except String ((List (HKey × List Json)) × (Json × (HKey ⊕ List Json) × Bool)) := do
  let cid ← circuit.getN "circuit_id"
  let ck ← hashKey cid
  let aliased := alistHas m ck
  let l0 := (alistFind m ck).getD []
  let src ← circuit.getN "src_site"
  let sk ← hashKey src
  let srcHit := alistHas m sk
  let l1 := if srcHit then l0 ++ ((alistFind m sk).getD []) else l0
  let m1 := if aliased && srcHit then alistPut m ck l1 else m
  let dst ← circuit.getN "dst_site"
  let dk ← hashKey dst
  let dstHit := alistHas m1 dk
  let l2 := if dstHit then l1 ++ ((alistFind m1 dk).getD []) else l1
  let m2 := if aliased && dstHit then alistPut m1 ck l2 else m1
  let is_impacted := !l2.isEmpty
  return (m2, (circuit, if aliased then .inl ck else .inr l2, is_impacted))

/-- The circuit loop with its `impacted_circuits_count` accumulator. -/
def process_circuits (m : List (HKey × List Json)) (cs : List Json) (count : Nat) :
    Except String ((List (HKey × List Json)) ×
      List (Json × (HKey ⊕ List Json) × Bool) × Nat) :=
  match cs with
  | [] => .ok (m, [], count)
  | c :: rest => do
      let (m', out) ← process_circuit m c
      let count' := if out.2.2 then count + 1 else count
      let (mF, outs, cF) ← process_circuits m' rest count'
      return (mF, out :: outs, cF)

/-- Writing `circuit["alarms"]`/`circuit["is_impacted"]` once all
mutation is over: an aliased list reads the final dict entry. -/
def materialize_circuit (mF : List (HKey × List Json))
    (o : Json × (HKey ⊕ List Json) × Bool) : Json :=
  let alarms := match o.2.1 with
    | .inl k => (alistFind mF k).getD []
    | .inr l => l
  (o.1.setKey "alarms" (.arr alarms)).setKey "is_impacted" (.bool o.2.2)

/-- `for hop_id in path.get("hops", [])`: lists iterate; strings yield
one-character strings; dicts yield their keys. -/
def iterHops (j : Json) : Except String (List Json) :=
  match j with
  | .arr xs => .ok xs
  | .str s => .ok (s.data.map (fun c => .str ⟨[c]⟩))
  | .obj kvs => .ok (kvs.map (fun p => .str p.1))
  | _ => .error "TypeError: hops not iterable"

/-- One iteration of the path-enrichment loop (runs after all circuits,
so it reads the possibly mutated index).  Returns the enriched path and
the hop count for `debug_state.num_hops_checked`. -/
def process_path (mF : List (HKey × List Json)) (path : Json) :
    Except String (Json × Nat) := do
  let hops0 ← path.getD "hops" (.arr [])
  let hops ← iterHops hops0
  let path_alarms ← hops.foldlM (fun acc h => do
      let hk ← hashKey h
      pure (if alistHas mF hk then acc ++ ((alistFind mF hk).getD []) else acc)) []
  return ((path.setKey "alarms" (.arr path_alarms)).setKey "is_impacted"
    (.bool !path_alarms.isEmpty), hops.length)

/-- `t_data.get("error") == "circuit_breaker_open"`.  The four envelopes
are dicts by the time this runs (each already served a `.get`), so the
total lookup is exact there. -/
def cb_open_warn (t : Json) : Bool :=
  match t.lookup "error" with
  | some (.str s) => s == "circuit_breaker_open"
  | _ => false

/-- The warnings / `partial` accumulation over
`[topology, inventory, outage, comments]`. -/
def tool_warnings (topology inventory outage comment : Json) : List Json × Bool :=
  [("topology", topology), ("inventory", inventory),
   ("outage", outage), ("comments", comment)].foldl
    (fun (acc : List Json × Bool) nt =>
      if cb_open_warn nt.2 then
        (acc.1 ++ [Json.str ("Tool '" ++ nt.1 ++
          "' was skipped due to recurring failures (circuit breaker open).")], true)
      else acc)
    ([], false)

/-- The `ui_response` dict literal of the correlator. -/
def build_ui (view_type : String) (total impacted : Nat)
    (pathsF circuitsF : List Json) (comments : Json) (warnings : List Json)
    (partialB : Bool) (numAlarms numHops : Nat) : Json :=
  .obj [
    ("view_type", .str view_type),
    ("summary", .obj [
      ("total_circuits", .num total),
      ("impacted_circuits", .num impacted),
      ("impacted_customers", .num 0),
      ("notes", .str "Correlation complete. Alarms merged into circuits and topology paths.")]),
    ("paths", .arr pathsF),
    ("circuits", .arr circuitsF),
    ("comments", comments),
    ("warnings", .arr warnings),
    ("partial", .bool partialB),
    ("natural_language_summary", .str ("Found " ++ toString total ++ " circuits, " ++
      toString impacted ++ " of which are impacted by active outages.")),
    ("debug_state", .obj [
      ("num_alarms", .num numAlarms),
      ("num_hops_checked", .num numHops)])]

/-- The state writes of the correlator: `validation` (with
`needs_refinement` unconditionally `False` — the zero-data heuristic is
a `pass`), `partial`, and `ui_response`. -/
def correlate_result (state : RState) (partialB : Bool) (warnings : List Json)
    (ui : Json) : RState :=
  { state with
    validation := some (.obj [
      ("status", .str (if partialB then "partial" else "ok")),
      ("needs_refinement", .bool false),
      ("warnings", .arr warnings)]),
    partialFlag := some (.bool partialB),
    ui_response := some ui }

/-- `correlate_and_validate_node`.  (`hierarchy_data` is read but unused
by the current logic; `comment_data` feeds only RAG metrics and the UI
payload.) -/
def correlate_and_validate_node (state : RState) : Except String RState := do
  let topology_data := orEmptyObj state.topology_data
  let inventory_data := orEmptyObj state.inventory_data
  let comment_data := orEmptyObj state.comment_data
  let outage_data := orEmptyObj state.outage_data
  -- 1. map alarms
  let alarms0 ← outage_data.getD "active_alarms" (.arr [])
  let alarms ← iterSteps alarms0
  let m0 ← index_alarms alarms
  -- 2. enrich circuits
  let circuits0 ← inventory_data.getD "circuits" (.arr [])
  let circuits ← iterSteps circuits0
  let (mF, outs, impacted) ← process_circuits m0 circuits 0
  -- 3. enrich paths (after the circuit loop, on the mutated index)
  let paths0 ← topology_data.getD "paths" (.arr [])
  let pathsL ← iterSteps paths0
  let pathOuts ← pathsL.mapM (process_path mF)
  -- 4. comment RAG metrics (counter increments are no-ops here)
  let comments ← comment_data.getD "comments" (.arr [])
  -- 5. warnings / partial; 6. validation; 7. ui_response
  let (warnings, partialB) :=
    tool_warnings topology_data inventory_data outage_data comment_data
  let ui := build_ui (if paths0.truthy then "path_view" else "circuit_view")
    circuits.length impacted (pathOuts.map (·.1))
    (outs.map (materialize_circuit mF)) comments warnings partialB
    alarms.length (pathOuts.map (·.2)).sum
  return correlate_result state partialB warnings ui

/-! ## Routers (`src/orchestrator/routers.py`) -/

/-- Python `int(x)` for the values the router converts. -/
def pyInt (j : Json) : Except String Int :=
  match j with
  | .num n => .ok n
  | .bool b => .ok (if b then 1 else 0)
  | .str s => match s.toInt? with
      | some n => .ok n
      | none => .error "ValueError: invalid literal for int()"
  | _ => .error "TypeError: int() argument"

/-- `refinement_router`: back to the planner only when the validator
asked for refinement and retries remain; the backward edge increments
`retry_count`. -/
def refinement_router (state : RState) : Except String (String × RState) := do
  let validation := orEmptyObj state.validation
  let nr ← validation.getN "needs_refinement"
  let retry_count ← pyInt (state.retry_count.getD (.num 0))
  let max_retries ← pyInt (state.max_retries.getD (.num 0))
  if nr.truthy && retry_count < max_retries then
    return ("planner", { state with retry_count := some (.num (retry_count + 1)) })
  return ("response_node", state)

/-- Summary-field accessor on a UI payload. -/
def uiSummaryField (ui : Json) (f : String) : Option Json :=
  (ui.lookup "summary").bind (fun s => s.lookup f)

/-- The circuits list of a UI payload. -/
def uiCircuits (ui : Json) : List Json :=
  match ui.lookup "circuits" with
  | some (.arr cs) => cs
  | _ => []

/-- The paths list of a UI payload. -/
def uiPaths (ui : Json) : List Json :=
  match ui.lookup "paths" with
  | some (.arr ps) => ps
  | _ => []

/-- A circuit's `is_impacted` flag. -/
def circuitImpacted (c : Json) : Bool :=
  match c.lookup "is_impacted" with
  | some (.bool b) => b
  | _ => false

/-- The UI payload of a workflow result. -/
def uiOf (r : Except String RState) : Option Json :=
  match r with
  | .ok s' => s'.ui_response
  | .error _ => none

/-- `needs_refinement` as stored by a workflow result (total accessor
for closed statements). -/
def okValidationNR (r : Except String RState) : Option Json :=
  match r with
  | .ok s' => match s'.validation with
      | some v => v.lookup "needs_refinement"
      | none => none
  | .error _ => none

/-- The route chosen by `refinement_router` on a workflow result. -/
def routeOf (r : Except String RState) : Option String :=
  match r with
  | .ok s' => match refinement_router s' with
      | .ok (n, _) => some n
      | .error _ => none
  | .error _ => none

/-- The `alarms` attached to the first path of a result's UI payload. -/
def firstPathAlarms (r : Except String RState) : Option Json :=
  match r with
  | .ok s' => match s'.ui_response with
      | some ui => ((uiPaths ui).head?).bind (fun p => p.lookup "alarms")
      | none => none
  | .error _ => none

/-- C6 failing input: one alarm keyed by the circuit id, one keyed by
the circuit's src site. -/
def c6_alarm_c1 : Json := .obj [("alarm_id", .str "A1"), ("element_id", .str "C1")]

/-- C6 failing input: the site-keyed alarm. -/
def c6_alarm_s1 : Json := .obj [("alarm_id", .str "A2"), ("element_id", .str "S1")]

/-- C6 failing input: a circuit whose id is also a path hop. -/
def c6_circuit : Json :=
  .obj [("circuit_id", .str "C1"), ("src_site", .str "S1"), ("dst_site", .str "T1")]

/-- C6 failing input: a path whose only hop is the circuit id `C1`. -/
def c6_path : Json := .obj [("hops", .arr [.str "C1"])]

/-- C6 failing input: the assembled request state. -/
def c6_state : RState := {
  outage_data := some (.obj [("active_alarms", .arr [c6_alarm_c1, c6_alarm_s1])]),
  inventory_data := some (.obj [("circuits", .arr [c6_circuit])]),
  topology_data := some (.obj [("paths", .arr [c6_path])]) }

/-- A demonstration tool environment with fixed successful envelopes. -/
def demoEnv : ToolEnv := {
  run_topology_tool := fun _ => .ok (.obj [("paths", .arr [])]),
  run_inventory_tool := fun _ => .ok (.obj [("circuits", .arr [])]),
  run_comment_tool := fun _ => .ok (.obj [("comments", .arr [])]),
  run_outage_tool := fun _ => .ok (.obj [("active_alarms", .arr [])]),
  run_memory_tool := fun _ => .ok (.obj []),
  run_hierarchy_tool := fun _ => .ok (.obj []) }

/-- A step depending on `b` (C2 input). -/
def cyc_step_a : Json := .obj [("id", .str "a"), ("tool", .str "topology_tool"),
  ("params", .obj []), ("depends_on", .arr [.str "b"])]

/-- A step depending on `a` (C2 input). -/
def cyc_step_b : Json := .obj [("id", .str "b"), ("tool", .str "inventory_tool"),
  ("params", .obj []), ("depends_on", .arr [.str "a"])]

/-- A plan whose `depends_on` relation is a two-cycle. -/
def cyc_plan : Json := .obj [("steps", .arr [cyc_step_a, cyc_step_b])]

/-- Request state carrying the cyclic plan. -/
def cyc_state : RState := { plan := some cyc_plan }

/-- A database environment whose queries raise (C1 input). -/
def dbFail : DbEnv := {
  session := .ok (),
  get_circuits_by_sites := fun _ _ _ => .error "db connection lost",
  get_sites_by_ids := fun _ => .error "db connection lost" }

/-- The real inventory tool over the failing database. -/
def c1_inventory : RState → Except String Json := run_inventory_tool dbFail

/-- Tool environment where the inventory DB raises. -/
def c1_env : ToolEnv := { demoEnv with run_inventory_tool := c1_inventory }

/-- C1 input: an inventory step followed by an outage step, with enough
selected sites for the inventory tool to reach its DB query. -/
def c1_state : RState := {
  ui_context := some (.obj [("selected_sites",
    .arr [.str "Dallas POP", .str "San Antonio"])]),
  plan := some (.obj [("steps", .arr [
    .obj [("id", .str "step_1"), ("tool", .str "inventory_tool"), ("params", .obj [])],
    .obj [("id", .str "step_2"), ("tool", .str "outage_tool"), ("params", .obj [])]])]) }

/-- The `validation` slot of a workflow result. -/
def validationOf (r : Except String RState) : Option (Option Json) :=
  match r with
  | .ok s' => some s'.validation
  | .error _ => none

/-- A fresh breaker with the given knobs. -/
def cb_fresh (th : Nat) (timeout : Int) : CircuitBreaker :=
  { failure_threshold := (th : Int), recovery_timeout := timeout }

/-- The breaker after `th` consecutive `record_failure` calls at `t0`. -/
def cb_after_failures (th : Nat) (timeout t0 : Int) (tool : String) : CircuitBreaker :=
  (fun c => CircuitBreaker.record_failure c t0 tool)^[th] (cb_fresh th timeout)

/-- Tool environment whose outage tool raises on every call (C4 input). -/
def c4_env : ToolEnv :=
  { demoEnv with run_outage_tool := fun _ => .error "outage api down" }

/-- C4 input: a plan with a single outage step. -/
def c4_state : RState := { plan := some (.obj [("steps", .arr [
  .obj [("id", .str "s1"), ("tool", .str "outage_tool"), ("params", .obj [])]])]) }

/-- C5 input: an outage step whose `circuit_ids` is a `$ref` token
naming a step (`step_99`) that does not exist in the plan, with
inventory data present in the state. -/
def c5_state : RState := {
  plan := some (.obj [("steps", .arr [.obj [("id", .str "s1"),
    ("tool", .str "outage_tool"),
    ("params", .obj [("circuit_ids", .str "$ref:step_99.output.nonexistent")])]])]),
  inventory_data := some (.obj [("circuits", .arr [.obj [("circuit_id", .str "C-1")]])]) }

/-- A deterministic randomness oracle: every alarm coin-flip fails. -/
def c5_rng : Rng := { chance := fun _ => false, draw := fun _ => 0 }

/-- C5 input for the inventory-side resolution: topology paths with
overlapping hops. -/
def c5b_state : RState := {
  topology_data := some (.obj [("paths", .arr [
    .obj [("hops", .arr [.str "H1", .str "H2"])],
    .obj [("hops", .arr [.str "H2"])]])]) }

/-- The step ids named by a plan, in order. -/
def stepIds (p : Json) : List String :=
  match p.lookup "steps" with
  | some (.arr xs) =>
      xs.filterMap (fun s =>
        match s.lookup "id" with
        | some (.str t) => some t
        | _ => none)
  | _ => []

/-- The warnings emitted by an outage-tool run. -/
def outWarnings (r : Except String (Json × List String)) : Option (List String) :=
  match r with
  | .ok o => some o.2
  | .error _ => none

/-- `metadata.elements_checked.circuits` of an outage-tool envelope. -/
def outCircuitsChecked (r : Except String (Json × List String)) : Option Json :=
  match r with
  | .ok o => (o.1.lookup "metadata").bind (fun m =>
      (m.lookup "elements_checked").bind (fun e => e.lookup "circuits"))
  | .error _ => none

/-- The outage-tool result on `c5_state` with `c5_rng`. -/
def c5_out : Json × List String :=
  (.obj [("active_alarms", .arr []),
    ("metadata", .obj [("source", .str "outage_tool_stub"),
      ("num_alarms", .num 0),
      ("elements_checked", .obj [("sites", .num 0), ("devices", .num 0),
        ("circuits", .num 1)])])], [])

/-! ## Input guardrails (`src/llm/gateway/guardrails.py`)

Message contents are lists of characters.  The three PII regexes and the
injection heuristics are implemented directly over them; `re.sub`'s
leftmost non-overlapping scan is `subAux`.  Word characters follow the
ASCII part of Python's `\w` (the inputs of interest are ASCII). -/

/-- ASCII digit. -/
def isDigitC (c : Char) : Bool := '0' ≤ c && c ≤ '9'

/-- ASCII letter. -/
def isAlphaC (c : Char) : Bool := ('a' ≤ c && c ≤ 'z') || ('A' ≤ c && c ≤ 'Z')

/-- Python `\w` (ASCII part): letters, digits, underscore. -/
def isWordC (c : Char) : Bool := isAlphaC c || isDigitC c || c == '_'

/-- The credit-card separator class `[ -]`. -/
def isSepC (c : Char) : Bool := c == ' ' || c == '-'

/-- The e-mail local-part class `[A-Za-z0-9._%+-]`. -/
def isLocalC (c : Char) : Bool :=
  isAlphaC c || isDigitC c || c == '.' || c == '_' || c == '%' || c == '+' || c == '-'

/-- The e-mail domain class `[A-Za-z0-9.-]`. -/
def isDomainC (c : Char) : Bool := isAlphaC c || isDigitC c || c == '.' || c == '-'

/-- Python `\s` (ASCII part). -/
def isWsC (c : Char) : Bool :=
  c == ' ' || c == '\t' || c == '\n' || c == '\x0d' ||
  c == Char.ofNat 11 || c == Char.ofNat 12

/-- `\b` on the left of a match starting with a word character: the
previous character is absent or not a word character. -/
def boundaryL (prev : Option Char) : Bool :=
  match prev with
  | none => true
  | some c => !isWordC c

/-- `\b` on the right of a match ending with a word character: the next
character is absent or not a word character. -/
def boundaryR (rest : List Char) : Bool :=
  match rest with
  | [] => true
  | c :: _ => !isWordC c

/-- The SSN body `\d{3}-\d{2}-\d{4}` on the first 11 characters. -/
def ssnCheck : List Char → Bool
  | a :: b :: c :: d :: e :: f :: g :: h :: i :: j :: k :: _ =>
      isDigitC a && isDigitC b && isDigitC c && (d == '-') &&
      isDigitC e && isDigitC f && (g == '-') &&
      isDigitC h && isDigitC i && isDigitC j && isDigitC k
  | _ => false

/-- The SSN pattern `\b\d{3}-\d{2}-\d{4}\b` anchored at the current
position; returns the matched length. -/
def ssnMatcher (prev : Option Char) (cs : List Char) : Option Nat :=
  if boundaryL prev && ssnCheck cs then
    if boundaryR (cs.drop 11) then some 11 else none
  else none

/-- Phase 1 of the credit-card repetition: while still below the
minimum count, a failed `\d` forces the preceding lazy `[ -]*?` to
expand over the separator run, so further digits are reached across
separators.  Returns the suffix after `n` more digits. -/
def ccCross : Nat → List Char → Option (List Char)
  | 0, rest => some rest
  | n + 1, rest =>
      match rest.dropWhile isSepC with
      | c :: r => if isDigitC c then ccCross n r else none
      | [] => none

/-- Phase 2: at or above the minimum count the engine prefers stopping
over expanding a lazy separator, so the match extends only through
directly adjacent digits (up to the maximum of 16). -/
def ccExtend : Nat → List Char → List Char
  | 0, rest => rest
  | k + 1, rest =>
      match rest with
      | c :: r => if isDigitC c then ccExtend k r else rest
      | [] => rest

/-- The credit-card pattern `\b(?:\d[ -]*?){13,16}\b` anchored at the
current position.  After the phases, a failing trailing `\b` cannot be
rescued: shorter stops (≥ 13) end before a digit and separator
expansion needs a separator where `\b` failure needs a word character. -/
def ccMatcher (prev : Option Char) (cs : List Char) : Option Nat :=
  if !boundaryL prev then none
  else
    match cs with
    | [] => none
    | c :: rest =>
        if !isDigitC c then none
        else
          match ccCross 12 rest with
          | none => none
          | some r13 =>
              let rfin := ccExtend 3 r13
              if boundaryR rfin then some (cs.length - rfin.length) else none

/-- The TLD class of the source pattern, literally `[A-Z|a-z]`:
letters and the pipe character. -/
def isTldC (c : Char) : Bool := isAlphaC c || c == '|'

/-- `\b` in the middle of the text: word-ness changes between the last
matched character and the next one (absent = non-word). -/
def boundaryMid (endc : Char) (next : Option Char) : Bool :=
  isWordC endc != (match next with | some c => isWordC c | none => false)

/-- Greedy `{2,}` selection for the TLD: try the longest prefix of the
class run first, shrinking while the trailing `\b` fails. -/
def tldTry (run after : List Char) : Nat → Option Nat
  | 0 => none
  | len + 1 =>
      if len + 1 < 2 then none
      else
        match run[len]? with
        | some endc =>
            let next := match run.drop (len + 1) with
              | c :: _ => some c
              | [] => after.head?
            if boundaryMid endc next then some (len + 1) else tldTry run after len
        | none => tldTry run after len

/-- Backtracking of greedy `[A-Za-z0-9.-]+\.[A-Z|a-z]{2,}\b`: try the
rightmost `.` split first; `hasPrev` records that at least one domain
character precedes the candidate dot. -/
def dSplit (hasPrev : Bool) : List Char → Option Nat
  | [] => none
  | ch :: rest =>
      match (if isDomainC ch then (dSplit true rest).map (· + 1) else none) with
      | some len => some len
      | none =>
          if ch == '.' && hasPrev then
            let tld := rest.takeWhile isTldC
            match tldTry tld (rest.drop tld.length) tld.length with
            | some len => some (1 + len)
            | none => none
          else none

/-- The e-mail pattern anchored at the current position; its leading
`\b` compares the word-ness of the previous character with that of the
first matched one. -/
def emailMatcher (prev : Option Char) (cs : List Char) : Option Nat :=
  match cs with
  | [] => none
  | first :: _ =>
      if !boundaryMid first prev then none
      else
        let localRun := cs.takeWhile isLocalC
        if localRun.isEmpty then none
        else
          match cs.drop localRun.length with
          | c :: rest =>
              if c == '@' then
                (dSplit false rest).map (fun len => localRun.length + 1 + len)
              else none
          | [] => none

/-- `re.sub`'s scan: leftmost match, non-overlapping, continuing after
each match; matches are computed against the original string (`prev` is
the previously consumed original character). -/
def subAux (m : Option Char → List Char → Option Nat) (repl : List Char) :
    Nat → Option Char → List Char → List Char
  | _, _, [] => []
  | skip + 1, _, c :: cs => subAux m repl skip (some c) cs
  | 0, prev, c :: cs =>
      match m prev (c :: cs) with
      | some len => repl ++ subAux m repl (len - 1) (some c) cs
      | none => c :: subAux m repl 0 (some c) cs

/-- `[REDACTED_SSN]`. -/
def ssnRepl : List Char := "[REDACTED_SSN]".data

/-- `[REDACTED_CREDIT_CARD]`. -/
def ccRepl : List Char := "[REDACTED_CREDIT_CARD]".data

/-- `[REDACTED_EMAIL]`. -/
def emailRepl : List Char := "[REDACTED_EMAIL]".data

/-- The PII pass of `apply_input_guardrails`: the three `pattern.sub`
calls in dict order (ssn, credit_card, email). -/
def redactPII (content : List Char) : List Char :=
  let c1 := subAux ssnMatcher ssnRepl 0 none content
  let c2 := subAux ccMatcher ccRepl 0 none c1
  subAux emailMatcher emailRepl 0 none c2

/-- Contiguous-substring test (`needle in hay`). -/
def containsSub : List Char → List Char → Bool
  | [], needle => needle.isPrefixOf ([] : List Char)
  | c :: t, needle => needle.isPrefixOf (c :: t) || containsSub t needle

/-- Phrase words matched literally with `\s+` between them; returns the
rest after the last word. -/
def matchWords : List (List Char) → List Char → Option (List Char)
  | [], cs => some cs
  | w :: ws, cs =>
      if w.isPrefixOf cs then
        match ws with
        | [] => some (cs.drop w.length)
        | _ =>
            let r := (cs.drop w.length)
            let r' := r.dropWhile isWsC
            if r'.length < r.length then matchWords ws r' else none
      else none

/-- A phrase occurrence at the current position, with or without the
`\b` anchors. -/
def phraseAt (withB : Bool) (phrase : List (List Char)) (prev : Option Char)
    (cs : List Char) : Bool :=
  (!withB || boundaryL prev) &&
  match matchWords phrase cs with
  | some rest => !withB || boundaryR rest
  | none => false

/-- Search a phrase anywhere in the text. -/
def searchPhrase (withB : Bool) (phrase : List (List Char)) :
    Option Char → List Char → Bool
  | _, [] => false
  | prev, c :: cs =>
      phraseAt withB phrase prev (c :: cs) || searchPhrase withB phrase (some c) cs

/-- The INJECTION_PATTERNS alternatives (lower-cased; each matched with
`\b` anchors and `\s+` gaps).  The optional groups of the
ignore-instructions pattern are expanded into alternatives. -/
def injectionPhrases : List (List (List Char)) :=
  ([["ignore", "instructions"], ["ignore", "directions"], ["ignore", "prompts"],
    ["ignore", "all", "instructions"], ["ignore", "all", "directions"],
    ["ignore", "all", "prompts"],
    ["ignore", "previous", "instructions"], ["ignore", "previous", "directions"],
    ["ignore", "previous", "prompts"],
    ["ignore", "all", "previous", "instructions"],
    ["ignore", "all", "previous", "directions"],
    ["ignore", "all", "previous", "prompts"],
    ["system", "prompt"], ["initial", "prompt"], ["core", "instructions"],
    ["you", "are", "now"], ["act", "as"], ["from", "now", "on", "you"],
    ["dan"], ["do", "anything", "now"], ["developer", "mode"],
    ["unfiltered", "mode"],
    ["disregard", "the", "above"],
    ["print", "your", "instructions"], ["output", "initial", "prompt"]]
    : List (List String)).map (fun p => p.map String.data)

/-- The forget-everything pattern: `[\b\s]*` (backspace-or-space class)
matches empty, so the phrase itself carries no word-boundary anchors. -/
def forgetPhrase : List (List Char) :=
  (["forget", "everything"] : List String).map String.data

/-- `any(pattern.search(content) for pattern in INJECTION_PATTERNS)`
over the lower-cased content. -/
def isInjection (low : List Char) : Bool :=
  injectionPhrases.any (fun p => searchPhrase true p none low) ||
  searchPhrase false forgetPhrase none low

/-- The suspicious-keyword list. -/
def suspiciousKeywords : List (List Char) :=
  (["ignore", "prompt", "system", "instruction", "bypass", "override", "developer"]
    : List String).map String.data

/-- `sum(1 for word in suspicious_keywords if word in content.lower())`. -/
def keywordScore (low : List Char) : Nat :=
  suspiciousKeywords.countP (fun w => containsSub low w)

/-- The replacement sentence used when an injection is suspected. -/
def blockedSentinel : List Char := "BLOCKED: Prompt Injection Attempt Detected.".data

/-- The injection-heuristic stage applied after PII redaction. -/
def injectionScrub (content : List Char) : List Char :=
  let low := content.map Char.toLower
  if isInjection low || decide (3 ≤ keywordScore low) then blockedSentinel else content

/-- Gateway messages: only human messages are user-originated. -/
inductive Msg where
  | human (content : List Char)
  | ai (content : List Char)
  | system (content : List Char)
deriving Repr, DecidableEq

/-- The guardrail-config flags the input guardrails read. -/
structure GuardrailConfig where
  pii_redaction : Bool := false
deriving Repr

/-- `GatewayGuardrails.apply_input_guardrails`: with redaction off the
messages pass through; otherwise each human message is PII-redacted and
then screened by the injection heuristics, other messages unchanged. -/
def apply_input_guardrails (msgs : List Msg) (config : GuardrailConfig) : List Msg :=
  if !config.pii_redaction then msgs
  else msgs.map (fun m =>
    match m with
    | .human c => .human (injectionScrub (redactPII c))
    | m => m)

/-- An exact SSN-shaped token: `ddd-dd-dddd`. -/
def ssnShape : List Char → Bool
  | [a, b, c, d, e, f, g, h, i, j, k] =>
      isDigitC a && isDigitC b && isDigitC c && (d == '-') &&
      isDigitC e && isDigitC f && (g == '-') &&
      isDigitC h && isDigitC i && isDigitC j && isDigitC k
  | _ => false

/-- A plain-digit credit-card-shaped token: 13–16 digits. -/
def ccShape (t : List Char) : Bool :=
  t.all isDigitC && decide (13 ≤ t.length) && decide (t.length ≤ 16)

/-- Assembly of a simple e-mail token `a@b.c`. -/
def emailOf (a b c : List Char) : List Char := a ++ '@' :: b ++ '.' :: c

/-- Lower-case ASCII letter. -/
def isLowerC (c : Char) : Bool := 'a' ≤ c && c ≤ 'z'

/-- The C8 failing input: a bounded SSN token followed by the same
digits embedded in a longer digit run (no word boundary there). -/
def c8_input : List Char := "123-45-6789 and 9123-45-67890".data

/-- The SSN token of `c8_input`. -/
def c8_token : List Char := "123-45-6789".data

-- ===================== end of definitions, start of theorems ==================

/-- **C3, counterexample.**  The claim fails on the code in two ways: a
parsed plan whose step names `reboot_tool` — a tool outside the closed
ToolSet — is accepted as the stored plan (no fallback, no planning
error), and the fallback plan's steps name
`[topology_tool, inventory_tool, comment_tool, memory_tool,
hierarchy_tool]`, not one step per tool of the spec's ToolSet (no
`outage_tool` step, and `comment_tool`/`memory_tool` instead of
`comments_search_tool`/`memory_search_tool`). -/
theorem C3_counterexample :
    (parse_plan_from_llm_output loadsBogusPlan "x" {}).2 = none ∧
    stepTools (parse_plan_from_llm_output loadsBogusPlan "x" {}).1 = ["reboot_tool"] ∧
    "reboot_tool" ∉ specToolSet ∧
    stepTools (fallback_plan {}) ≠ specToolSet ∧
    "outage_tool" ∉ stepTools (fallback_plan {}) := by
  refine ⟨rfl, rfl, by decide, by decide, by decide⟩

/-- Helper: on any parse or structure failure, the planner's parse
routine yields the fallback plan and writes a planning error. -/
theorem parse_plan_fail (loads : String → Option Json) (raw : String) (st : RState)
    (h : parseFailure loads raw = true) :
    ∃ m, parse_plan_from_llm_output loads raw st = (fallback_plan st, some m) := by
  unfold parse_plan_from_llm_output
  unfold parseFailure at h
  rcases hl : loads (cleaned_llm_text raw) with _ | data
  · exact ⟨_, rfl⟩
  · rw [hl] at h
    dsimp only at h ⊢
    split
    · exact ⟨_, rfl⟩
    · rename_i hshape
      rw [if_neg hshape] at h
      split
      · rename_i steps harr
        rw [harr] at h
        dsimp only at h
        split
        · exact ⟨_, rfl⟩
        · rename_i hne
          rw [if_neg hne] at h
          split
          · exact ⟨_, rfl⟩
          · rename_i steps' hfix
            rw [hfix] at h
            exact absurd h (by simp)
      · exact ⟨_, rfl⟩

/-- **C3, amended.**  On any failure of JSON parse or structure
validation the planner stores the deterministic fallback plan — strategy
`fallback_simple`, reason tag `llm_planner_failed_or_invalid_json`, and
exactly five steps (`topology_tool`, `inventory_tool`, `comment_tool`,
`memory_tool`, `hierarchy_tool`), each with empty params — and records a
planning error; tool names are never validated against the ToolSet. -/
theorem C3_amended (loads : String → Option Json) (raw : String) (st : RState)
    (h : parseFailure loads raw = true) :
    (parse_plan_from_llm_output loads raw st).1 = fallback_plan st ∧
    (parse_plan_from_llm_output loads raw st).2.isSome = true ∧
    (fallback_plan st).lookup "strategy" = some (.str "fallback_simple") ∧
    ((fallback_plan st).lookup "metadata").bind (fun m => m.lookup "fallback_reason") =
      some (.str "llm_planner_failed_or_invalid_json") ∧
    (fallback_plan st).lookup "steps" = some (.arr [
      .obj [("id", .str "step_topology"), ("tool", .str "topology_tool"),
            ("params", .obj [])],
      .obj [("id", .str "step_inventory"), ("tool", .str "inventory_tool"),
            ("params", .obj [])],
      .obj [("id", .str "step_comments"), ("tool", .str "comment_tool"),
            ("params", .obj [])],
      .obj [("id", .str "step_memory"), ("tool", .str "memory_tool"),
            ("params", .obj [])],
      .obj [("id", .str "step_hierarchy"), ("tool", .str "hierarchy_tool"),
            ("params", .obj [])]]) := by
  obtain ⟨m, hm⟩ := parse_plan_fail loads raw st h
  exact ⟨by rw [hm], by rw [hm]; rfl, rfl, rfl, rfl⟩

/-- Witness for `C3_amended` at a concretely failing raw text. -/
theorem C3_amended_witness :
    parseFailure (fun _ => none) "not json" = true ∧
    (parse_plan_from_llm_output (fun _ => none) "not json" {}).1 = fallback_plan {} :=
  ⟨rfl, (C3_amended (fun _ => none) "not json" {} rfl).1⟩

/-- **C10.**  When `user_input` is empty or whitespace-only, the planner
makes no model call: the result is independent of the chain and parse
oracles, the plan is the fallback plan, `plan_raw` is the empty string,
and the rest of the state is returned unchanged. -/
theorem C10_empty_input (chain chain' : Except String (PlannerIn → Except String String))
    (loads loads' : String → Option Json) (state : RState) (q : String)
    (hq : question_of state = .ok q) (hstrip : pyStrip q = "") :
    planner_node chain loads state =
      .ok { state with plan := some (fallback_plan state), plan_raw := some (.str "") } ∧
    planner_node chain loads state = planner_node chain' loads' state := by
  constructor <;>
    simp [planner_node, hq, hstrip, Bind.bind, Except.bind, pure, Except.pure]

/-- Witness for `C10_empty_input` on a whitespace-only question. -/
theorem C10_empty_input_witness :
    question_of { user_input := some (.str "   ") } = .ok "   " ∧
    pyStrip "   " = "" ∧
    planner_node (.ok fun _ => .ok "unused") (fun _ => none)
        { user_input := some (.str "   ") } =
      .ok { user_input := some (.str "   "),
            plan := some (fallback_plan { user_input := some (.str "   ") }),
            plan_raw := some (.str "") } :=
  ⟨rfl, by decide,
   (C10_empty_input (.ok fun _ => .ok "unused") (.ok fun _ => .ok "unused")
      (fun _ => none) (fun _ => none) { user_input := some (.str "   ") } "   "
      rfl (by decide)).1⟩

/-- Helper: a successful `.get` implies the receiver was a dict. -/
theorem getD_ok_obj (j : Json) (k : String) (d v : Json) (h : j.getD k d = .ok v) :
    ∃ kvs, j = .obj kvs := by
  cases j <;> first | exact ⟨_, rfl⟩ | simp [Json.getD] at h

/-- Helper: the updated binding is found first after `setKey`. -/
theorem find_setKey_go (kvs : List (String × Json)) (k : String) (v : Json) :
    List.find? (fun p => p.1 == k) (Json.setKey.go kvs k v) = some (k, v) := by
  induction kvs with
  | nil => simp [Json.setKey.go]
  | cons p rest ih =>
      by_cases hk : p.1 == k
      · simp [Json.setKey.go, hk]
      · simp [Json.setKey.go, hk, ih]

/-- Helper: `d[k] = v` makes `d.get(k)` return `v`. -/
theorem lookup_setKey_self (kvs : List (String × Json)) (k : String) (v : Json) :
    ((Json.obj kvs).setKey k v).lookup k = some v := by
  simp [Json.setKey, Json.lookup, find_setKey_go]

/-- Helper: circuit enrichment returns the input dict (later mutated
only through its `alarms`/`is_impacted` keys). -/
theorem process_circuit_obj (m : List (HKey × List Json)) (c : Json)
    (m' : List (HKey × List Json)) (out : Json × (HKey ⊕ List Json) × Bool)
    (h : process_circuit m c = .ok (m', out)) :
    out.1 = c ∧ ∃ kvs, c = .obj kvs := by
  unfold process_circuit at h
  simp only [bind, Except.bind, pure, Except.pure] at h
  rcases g1 : c.getN "circuit_id" with _ | cid
  · rw [g1] at h; exact (Except.noConfusion h)
  rw [g1] at h; dsimp only at h
  rcases g2 : hashKey cid with _ | ck
  · rw [g2] at h; exact (Except.noConfusion h)
  rw [g2] at h; dsimp only at h
  rcases g3 : c.getN "src_site" with _ | src
  · rw [g3] at h; exact (Except.noConfusion h)
  rw [g3] at h; dsimp only at h
  rcases g4 : hashKey src with _ | sk
  · rw [g4] at h; exact (Except.noConfusion h)
  rw [g4] at h; dsimp only at h
  rcases g5 : c.getN "dst_site" with _ | dst
  · rw [g5] at h; exact (Except.noConfusion h)
  rw [g5] at h; dsimp only at h
  rcases g6 : hashKey dst with _ | dk
  · rw [g6] at h; exact (Except.noConfusion h)
  rw [g6] at h; dsimp only at h
  injection h with h'
  obtain ⟨-, h2⟩ := Prod.mk.injEq .. |>.mp h'
  constructor
  · rw [← h2]
  · exact getD_ok_obj c "circuit_id" .null cid g1

/-- Helper: the impacted counter counts exactly the circuits whose
`is_impacted` flag was set, one output per input circuit, each a dict. -/
theorem process_circuits_spec (cs : List Json) :
    ∀ m count mF outs cF,
      process_circuits m cs count = .ok (mF, outs, cF) →
      cF = count + outs.countP (fun o => o.2.2) ∧ outs.length = cs.length ∧
      ∀ o ∈ outs, ∃ kvs, o.1 = .obj kvs := by
  induction cs with
  | nil =>
      intro m count mF outs cF h
      unfold process_circuits at h
      injection h with h'
      obtain ⟨-, h2⟩ := Prod.mk.injEq .. |>.mp h'
      obtain ⟨h3, h4⟩ := Prod.mk.injEq .. |>.mp h2
      subst h3; subst h4
      simp
  | cons c rest ih =>
      intro m count mF outs cF h
      unfold process_circuits at h
      simp only [bind, Except.bind, pure, Except.pure] at h
      rcases g1 : process_circuit m c with _ | p1
      · rw [g1] at h; exact (Except.noConfusion h)
      obtain ⟨m1, out⟩ := p1
      rw [g1] at h; dsimp only at h
      rcases g2 : process_circuits m1 rest (if out.2.2 then count + 1 else count) with _ | p2
      · rw [g2] at h; exact (Except.noConfusion h)
      obtain ⟨m2, outs2, c2⟩ := p2
      rw [g2] at h; dsimp only at h
      injection h with h'
      obtain ⟨-, h2⟩ := Prod.mk.injEq .. |>.mp h'
      obtain ⟨h3, h4⟩ := Prod.mk.injEq .. |>.mp h2
      subst h3; subst h4
      obtain ⟨ic, il, io⟩ := ih m1 _ _ _ _ g2
      refine ⟨?_, by simp [il], ?_⟩
      · rw [ic]
        by_cases hb : out.2.2 <;> simp [hb, List.countP_cons] <;> omega
      · intro o ho
        rcases List.mem_cons.mp ho with rfl | ho2
        · obtain ⟨hc, kvs, hobj⟩ := process_circuit_obj m c m1 o g1
          exact ⟨kvs, by rw [hc, hobj]⟩
        · exact io o ho2

/-- Helper: `is_impacted` of a materialized circuit is the recorded
flag. -/
theorem circuitImpacted_setKeys (kvs : List (String × Json)) (a : Json) (b : Bool) :
    circuitImpacted (((Json.obj kvs).setKey "alarms" a).setKey "is_impacted" (.bool b)) = b := by
  have h := lookup_setKey_self (Json.setKey.go kvs "alarms" a) "is_impacted" (.bool b)
  unfold circuitImpacted
  rw [show ((Json.obj kvs).setKey "alarms" a) = Json.obj (Json.setKey.go kvs "alarms" a)
    from rfl]
  rw [h]

/-- Helper: materialization preserves the impact flag. -/
theorem circuitImpacted_materialize (mF : List (HKey × List Json))
    (o : Json × (HKey ⊕ List Json) × Bool) (kvs : List (String × Json))
    (hobj : o.1 = .obj kvs) :
    circuitImpacted (materialize_circuit mF o) = o.2.2 := by
  unfold materialize_circuit
  rw [hobj]
  exact circuitImpacted_setKeys kvs _ o.2.2

/-- Helper: every successful correlator run produces its state through
`correlate_result` and `build_ui`, with the circuit fold's index, outputs
and impacted count. -/
theorem correlate_ok_shape (s s' : RState)
    (h : correlate_and_validate_node s = .ok s') :
    ∃ m0 circuits mF outs impacted vt pathsF comments warnings partialB numAlarms numHops,
      process_circuits m0 circuits 0 = Except.ok (mF, outs, impacted) ∧
      s' = correlate_result s partialB warnings
        (build_ui vt circuits.length impacted pathsF
          (outs.map (materialize_circuit mF)) comments warnings partialB
          numAlarms numHops) := by
  unfold correlate_and_validate_node at h
  simp only [bind, Except.bind, pure, Except.pure] at h
  rcases e1 : (orEmptyObj s.outage_data).getD "active_alarms" (.arr []) with _ | alarms0
  · rw [e1] at h; exact (Except.noConfusion h)
  rw [e1] at h; dsimp only at h
  rcases e2 : iterSteps alarms0 with _ | alarms
  · rw [e2] at h; exact (Except.noConfusion h)
  rw [e2] at h; dsimp only at h
  rcases e3 : index_alarms alarms with _ | m0
  · rw [e3] at h; exact (Except.noConfusion h)
  rw [e3] at h; dsimp only at h
  rcases e4 : (orEmptyObj s.inventory_data).getD "circuits" (.arr []) with _ | circuits0
  · rw [e4] at h; exact (Except.noConfusion h)
  rw [e4] at h; dsimp only at h
  rcases e5 : iterSteps circuits0 with _ | circuits
  · rw [e5] at h; exact (Except.noConfusion h)
  rw [e5] at h; dsimp only at h
  rcases e6 : process_circuits m0 circuits 0 with _ | trip
  · rw [e6] at h; exact (Except.noConfusion h)
  obtain ⟨mF, outs, impacted⟩ := trip
  rw [e6] at h; dsimp only at h
  rcases e7 : (orEmptyObj s.topology_data).getD "paths" (.arr []) with _ | paths0
  · rw [e7] at h; exact (Except.noConfusion h)
  rw [e7] at h; dsimp only at h
  rcases e8 : iterSteps paths0 with _ | pathsL
  · rw [e8] at h; exact (Except.noConfusion h)
  rw [e8] at h; dsimp only at h
  rcases e9 : pathsL.mapM (process_path mF) with _ | pathOuts
  · rw [e9] at h; exact (Except.noConfusion h)
  rw [e9] at h; dsimp only at h
  rcases e10 : (orEmptyObj s.comment_data).getD "comments" (.arr []) with _ | comments
  · rw [e10] at h; exact (Except.noConfusion h)
  rw [e10] at h; dsimp only at h
  injection h with h'
  exact ⟨m0, circuits, mF, outs, impacted, _, _, comments, _, _, _, _, e6, h'.symm⟩

/-- **C7.**  In every UI response the correlator produces,
`summary.impacted_circuits` equals the number of response circuits whose
`is_impacted` flag is true, is bounded by `summary.total_circuits`, and
`total_circuits` is the number of response circuits. -/
theorem C7_impact_accounting (s s' : RState)
    (h : correlate_and_validate_node s = .ok s') :
    ∃ ui, s'.ui_response = some ui ∧
      uiSummaryField ui "impacted_circuits" =
        some (.num ((uiCircuits ui).countP circuitImpacted)) ∧
      ((uiCircuits ui).countP circuitImpacted) ≤ (uiCircuits ui).length ∧
      uiSummaryField ui "total_circuits" = some (.num ((uiCircuits ui).length)) := by
  obtain ⟨m0, circuits, mF, outs, impacted, vt, pathsF, comments, warnings, partialB,
    na, nh, hpc, rfl⟩ := correlate_ok_shape s s' h
  obtain ⟨hc, hl, ho⟩ := process_circuits_spec circuits m0 0 mF outs impacted hpc
  have hcount : (outs.map (materialize_circuit mF)).countP circuitImpacted =
      outs.countP (fun o => o.2.2) := by
    rw [List.countP_map]
    exact List.countP_congr (fun o hoo => by
      obtain ⟨kvs, hk⟩ := ho o hoo
      simp [Function.comp, circuitImpacted_materialize mF o kvs hk])
  refine ⟨_, rfl, ?_, List.countP_le_length _, ?_⟩
  · show some (Json.num impacted) = _
    rw [show uiCircuits (build_ui vt circuits.length impacted pathsF
      (outs.map (materialize_circuit mF)) comments warnings partialB na nh) =
      outs.map (materialize_circuit mF) from rfl]
    rw [hcount, hc]
    simp
  · show some (Json.num circuits.length) = _
    rw [show uiCircuits (build_ui vt circuits.length impacted pathsF
      (outs.map (materialize_circuit mF)) comments warnings partialB na nh) =
      outs.map (materialize_circuit mF) from rfl]
    simp [hl]

/-- Witness for `C7_impact_accounting` on the empty request state. -/
theorem C7_impact_accounting_witness :
    (uiOf (correlate_and_validate_node {})).isSome = true ∧
    (uiOf (correlate_and_validate_node {})).bind
      (fun ui => uiSummaryField ui "impacted_circuits") = some (.num 0) := by
  obtain ⟨ui, hui, h1, h2, h3⟩ := C7_impact_accounting {} _ rfl
  exact ⟨rfl, rfl⟩

/-- **C9.**  The correlate/validate stage writes
`needs_refinement = False` unconditionally; consequently the refinement
router routes every successful correlator output to the response node,
never takes the backward edge, and leaves `retry_count` at its initial
value. -/
theorem C9_no_refinement (s s' : RState)
    (h : correlate_and_validate_node s = .ok s') :
    (∃ v, s'.validation = some v ∧ v.lookup "needs_refinement" = some (.bool false)) ∧
    s'.retry_count = s.retry_count ∧
    (∀ r s'', refinement_router s' = .ok (r, s'') →
      r = "response_node" ∧ s'' = s') := by
  obtain ⟨m0, circuits, mF, outs, impacted, vt, pathsF, comments, warnings, partialB,
    na, nh, hpc, rfl⟩ := correlate_ok_shape s s' h
  refine ⟨⟨_, rfl, rfl⟩, rfl, ?_⟩
  intro r s'' hr
  unfold refinement_router at hr
  simp only [bind, Except.bind, pure, Except.pure] at hr
  rcases p1 : pyInt ((correlate_result s partialB warnings (build_ui vt circuits.length
      impacted pathsF (outs.map (materialize_circuit mF)) comments warnings partialB
      na nh)).retry_count.getD (.num 0)) with _ | rc
  · rw [p1] at hr; exact (Except.noConfusion hr)
  rw [p1] at hr; dsimp only at hr
  rcases p2 : pyInt ((correlate_result s partialB warnings (build_ui vt circuits.length
      impacted pathsF (outs.map (materialize_circuit mF)) comments warnings partialB
      na nh)).max_retries.getD (.num 0)) with _ | mr
  · rw [p2] at hr; exact (Except.noConfusion hr)
  rw [p2] at hr; dsimp only at hr
  injection hr with hr'
  obtain ⟨hr1, hr2⟩ := Prod.mk.injEq .. |>.mp hr'
  exact ⟨hr1.symm, hr2.symm⟩

/-- Witness for `C9_no_refinement` on the empty request state. -/
theorem C9_no_refinement_witness :
    okValidationNR (correlate_and_validate_node {}) = some (.bool false) ∧
    routeOf (correlate_and_validate_node {}) = some "response_node" := by
  obtain ⟨⟨v, hv, hnr⟩, -, -⟩ := C9_no_refinement {} _ rfl
  exact ⟨rfl, rfl⟩

/-- **C6 (code bug).**  Evaluation at the failing input: the alarm index
entry for `C1` is mutated through the aliased `circuit_alarms` list
while the circuit is enriched, so the path whose only hop is `C1` is
attached `[A1, A2]` — including alarm `A2`, which is keyed by the site
`S1`, not by any hop id — where the spec requires exactly the alarms
keyed by the path's hop ids (`[A1]`). -/
theorem C6_code_bug_eval :
    firstPathAlarms (correlate_and_validate_node c6_state) =
      some (.arr [c6_alarm_c1, c6_alarm_s1]) ∧
    c6_alarm_s1.lookup "element_id" = some (.str "S1") ∧
    c6_path.lookup "hops" = some (.arr [.str "C1"]) ∧
    c6_alarm_c1.lookup "element_id" = some (.str "C1") :=
  ⟨rfl, rfl, rfl, rfl⟩

/-- Helper: writing a data slot does not touch `validation`. -/
theorem setSlot_validation (st : RState) (k : String) (v : Option Json) :
    (setSlot st k v).validation = st.validation := by
  unfold setSlot
  repeat' split
  all_goals rfl

/-- Helper: the executor's step loop never writes `validation`. -/
theorem run_steps_validation (env : ToolEnv) (ss : List Json) :
    ∀ st s', run_steps env ss st = .ok s' → s'.validation = st.validation := by
  induction ss with
  | nil =>
      intro st s' h
      unfold run_steps at h
      injection h with h'
      rw [h']
  | cons step rest ih =>
      intro st s' h
      unfold run_steps at h
      simp only [bind, Except.bind] at h
      rcases g1 : step.getN "tool" with _ | tn
      · rw [g1] at h; exact (Except.noConfusion h)
      rw [g1] at h; dsimp only at h
      cases tn <;> (try exact ih st s' h)
      rename_i name
      dsimp only at h
      rcases g2 : alistFind (tool_dispatch env) name with _ | fk
      · rw [g2] at h; exact ih st s' h
      obtain ⟨f, key⟩ := fk
      rw [g2] at h; dsimp only at h
      rcases g3 : f st with _ | r
      · rw [g3] at h; exact (Except.noConfusion h)
      rw [g3] at h; dsimp only at h
      rw [ih _ s' h, setSlot_validation]

/-- **C2, amended.**  The executor performs no dependency-graph
validation at all: it never writes `validation` (so
`validation.status` is never set to `error` by it), and a plan whose
`depends_on` relation is cyclic is executed in step order like any
other plan (see the counterexample for a concrete cyclic run). -/
theorem C2_amended (env : ToolEnv) (s s' : RState)
    (h : tool_node env s = .ok s') : s'.validation = s.validation := by
  unfold tool_node at h
  simp only [bind, Except.bind] at h
  rcases g1 : (s.plan.getD (.obj [])).getD "steps" (.arr []) with _ | steps
  · rw [g1] at h; exact (Except.noConfusion h)
  rw [g1] at h; dsimp only at h
  rcases g2 : iterSteps steps with _ | ss
  · rw [g2] at h; exact (Except.noConfusion h)
  rw [g2] at h; dsimp only at h
  exact Eq.trans (run_steps_validation env ss _ s' h) rfl

/-- **C2, counterexample.**  A plan whose two steps depend on each other
is not rejected: both steps execute in list order and `validation` is
left unset, not set to `status = error`. -/
theorem C2_counterexample :
    cyc_step_a.lookup "depends_on" = some (.arr [.str "b"]) ∧
    cyc_step_b.lookup "depends_on" = some (.arr [.str "a"]) ∧
    tool_node demoEnv cyc_state = .ok { cyc_state with
        topology_data := some (.obj [("paths", .arr [])]),
        inventory_data := some (.obj [("circuits", .arr [])]) } ∧
    ({ cyc_state with
        topology_data := some (.obj [("paths", .arr [])]),
        inventory_data := some (.obj [("circuits", .arr [])]) } : RState).validation
      = none :=
  ⟨rfl, rfl, rfl, rfl⟩

/-- Witness for `C2_amended` on the cyclic plan. -/
theorem C2_amended_witness :
    validationOf (tool_node demoEnv cyc_state) = some none := by
  have h := C2_amended demoEnv cyc_state _ rfl
  exact rfl

/-- **C1, counterexample.**  A database exception inside the inventory
tool propagates out of the executor: the request does not complete with
a 200/partial response — the remaining outage step never runs and the
API handler turns the escaped exception into a 500. -/
theorem C1_counterexample :
    tool_node c1_env c1_state = .error "db connection lost" ∧
    topology_query_status (tool_node c1_env c1_state) = 500 ∧ (500 : Nat) ≠ 200 :=
  ⟨rfl, rfl, by decide⟩

/-- Helper: `.get` on a dict returns the looked-up value. -/
theorem getD_obj_lookup (kvs : List (String × Json)) (k : String) (d : Json) :
    (Json.obj kvs).getD k d = .ok (((Json.obj kvs).lookup k).getD d) := by
  simp [Json.getD, Json.lookup]

/-- **C1, amended.**  Failures a tool adapter anticipates are recorded
inline (the topology tool turns a graph-driver error into an
`{error: ...}` metadata envelope and returns normally), but an exception
escaping a tool propagates out of the executor unchanged — the step loop
stops at the failing step, later steps do not run — and the API handler
answers 500, not 200 with `partial=true`. -/
theorem C1_amended :
    (∀ e, topology_query_status (.error e) = 500) ∧
    (∀ env step rest st name f key e,
      step.getN "tool" = .ok (.str name) →
      alistFind (tool_dispatch env) name = some (f, key) →
      f st = .error e →
      run_steps env (step :: rest) st = .error e) ∧
    (∀ msg st kvs src dst rest,
      orEmptyObj st.ui_context = .obj kvs →
      (Json.obj kvs).lookup "selected_sites" = some (.arr (src :: dst :: rest)) →
      run_topology_tool (some fun _ => .error msg) st = .ok (.obj [
        ("paths", .arr []),
        ("metadata", .obj [
          ("source", .str "topology_tool_graph_error"),
          ("error", .str msg),
          ("query_summary", .str ("Failed to fetch path for " ++ pyStr src ++
            " -> " ++ pyStr dst))])])) := by
  refine ⟨fun e => rfl, ?_, ?_⟩
  · intro env step rest st name f key e h1 h2 h3
    unfold run_steps
    simp only [bind, Except.bind, h1, h2, h3]
  · intro msg st kvs src dst rest h1 h2
    unfold run_topology_tool
    simp only [bind, Except.bind, pure, Except.pure, h1, getD_obj_lookup, Json.getN, h2]
    simp only [Option.getD]
    rw [show (Json.arr (src :: dst :: rest)).truthy = true from rfl]
    simp only [if_true]
    dsimp only [pyLen]
    rw [if_neg (by simp)]
    simp [pyIndex]

/-- Witness for `C1_amended` at concrete inputs. -/
theorem C1_amended_witness :
    topology_query_status (.error "boom") = 500 ∧
    run_steps c1_env [.obj [("id", .str "step_1"), ("tool", .str "inventory_tool"),
      ("params", .obj [])]] c1_state = .error "db connection lost" ∧
    run_topology_tool (some fun _ => .error "graph down") c1_state = .ok (.obj [
      ("paths", .arr []),
      ("metadata", .obj [
        ("source", .str "topology_tool_graph_error"),
        ("error", .str "graph down"),
        ("query_summary", .str "Failed to fetch path for Dallas POP -> San Antonio")])]) := by
  have h := C1_amended
  refine ⟨h.1 "boom", ?_, ?_⟩
  · exact h.2.1 c1_env _ [] c1_state "inventory_tool" c1_inventory "inventory_data"
      "db connection lost" rfl rfl rfl
  · exact h.2.2 "graph down" c1_state
      [("selected_sites", .arr [.str "Dallas POP", .str "San Antonio"])]
      (.str "Dallas POP") (.str "San Antonio") [] rfl rfl

/-- Helper: closed form of the breaker after `k ≤ threshold` consecutive
failures from fresh: count `k`, tripped exactly at `k = threshold`. -/
theorem cb_fail_iter (th : Nat) (timeout t0 : Int) (tool : String) :
    ∀ k : Nat, 1 ≤ k → k ≤ th →
    (fun c => CircuitBreaker.record_failure c t0 tool)^[k] (cb_fresh th timeout) =
    { failure_threshold := (th : Int), recovery_timeout := timeout,
      failures := [(tool, (k : Int))],
      tripped_at := if k = th then [(tool, t0)] else [] } := by
  intro k
  induction k with
  | zero => intro h1 _; exact absurd h1 (by omega)
  | succ n ih =>
      intro _ h2
      rw [Function.iterate_succ_apply']
      by_cases hn : n = 0
      · subst hn
        simp only [Function.iterate_zero, id]
        unfold CircuitBreaker.record_failure cb_fresh
        simp only [alistFind, alistPut, alistHas, List.find?, Option.map, Option.getD]
        by_cases hth : (1 : Nat) = th
        · subst hth
          rw [if_pos (by omega : (0 : Int) + 1 ≥ ((1 : Nat) : Int))]
          simp [alistPut]
        · rw [if_neg (by omega : ¬ ((0 : Int) + 1 ≥ (th : Int)))]
          simp [hth]
      · have hn1 : 1 ≤ n := by omega
        have hnth : n ≤ th := by omega
        have hne : n ≠ th := by omega
        rw [ih hn1 hnth]
        simp only [if_neg hne]
        unfold CircuitBreaker.record_failure
        simp only [alistFind, alistPut, alistHas, List.find?, beq_self_eq_true,
          Option.map, Option.getD]
        by_cases hEq : n + 1 = th
        · rw [if_pos (by omega : ((n : Nat) : Int) + 1 ≥ (th : Int))]
          simp only [if_pos hEq]
          norm_num [alistPut]
        · rw [if_neg (by omega : ¬ (((n : Nat) : Int) + 1 ≥ (th : Int)))]
          simp only [if_neg hEq]
          norm_num

/-- **C4, amended.**  The `CircuitBreaker` class does implement the
claimed state machine: after `failure_threshold` consecutive failures
the breaker opens; `is_open` stays true throughout the recovery window
without changing state; once the window has elapsed a single trial is
admitted (trip record erased, failure count reset to threshold − 1);
`record_success` on the trial closes the breaker and `record_failure`
re-opens it.  The executor, however, never consults this class: no call
is skipped and no `{error: circuit_breaker_open}` envelope is ever
written (see the counterexample). -/
theorem C4_amended (th : Nat) (timeout t0 t1 t2 : Int) (tool : String)
    (hth : 1 ≤ th) :
    alistFind (cb_after_failures th timeout t0 tool).tripped_at tool = some t0 ∧
    (t1 - t0 ≤ timeout →
      (cb_after_failures th timeout t0 tool).is_open t1 tool =
        (true, cb_after_failures th timeout t0 tool)) ∧
    (t1 - t0 > timeout →
      ((cb_after_failures th timeout t0 tool).is_open t1 tool).1 = false ∧
      alistFind ((cb_after_failures th timeout t0 tool).is_open t1 tool).2.tripped_at
        tool = none ∧
      alistFind ((cb_after_failures th timeout t0 tool).is_open t1 tool).2.failures
        tool = some ((th : Int) - 1) ∧
      alistFind (((cb_after_failures th timeout t0 tool).is_open t1 tool).2.record_success
        tool).failures tool = some 0 ∧
      alistFind (((cb_after_failures th timeout t0 tool).is_open t1 tool).2.record_success
        tool).tripped_at tool = none ∧
      alistFind (((cb_after_failures th timeout t0 tool).is_open t1 tool).2.record_failure
        t2 tool).tripped_at tool = some t2) := by
  have hiter := cb_fail_iter th timeout t0 tool th hth (le_refl th)
  rw [show cb_after_failures th timeout t0 tool =
    (fun c => CircuitBreaker.record_failure c t0 tool)^[th] (cb_fresh th timeout)
    from rfl, hiter, if_pos rfl]
  refine ⟨by simp [alistFind], ?_, ?_⟩
  · intro hle
    unfold CircuitBreaker.is_open
    simp only [alistFind, List.find?, beq_self_eq_true, Option.map, Option.getD]
    rw [if_neg (by omega)]
  · intro hgt
    unfold CircuitBreaker.is_open
    simp only [alistFind, List.find?, beq_self_eq_true, Option.map, Option.getD]
    rw [if_pos (by omega)]
    dsimp only
    refine ⟨rfl, by simp [alistErase, alistFind], by simp [alistPut, alistFind], ?_, ?_, ?_⟩
    · unfold CircuitBreaker.record_success
      simp [alistHas, alistFind, alistPut, alistErase]
    · unfold CircuitBreaker.record_success
      simp [alistHas, alistFind, alistPut, alistErase]
    · unfold CircuitBreaker.record_failure
      simp only [alistErase, alistPut, alistFind, List.find?, beq_self_eq_true,
        Option.map, Option.getD]
      rw [if_pos (by omega)]
      simp [alistPut]

/-- Witness for `C4_amended` with the default knobs (threshold 5,
recovery 60), failures at t=0 and a probe at t=100. -/
theorem C4_amended_witness :
    alistFind (cb_after_failures 5 60 0 "outage_tool").tripped_at "outage_tool" = some 0 ∧
    ((cb_after_failures 5 60 0 "outage_tool").is_open 100 "outage_tool").1 = false ∧
    alistFind ((cb_after_failures 5 60 0 "outage_tool").is_open 100
      "outage_tool").2.failures "outage_tool" = some 4 := by
  have h := C4_amended 5 60 0 100 101 "outage_tool" (by decide)
  refine ⟨h.1, (h.2.2 (by decide)).1, ?_⟩
  have h3 := (h.2.2 (by decide)).2.2.1
  simpa using h3

/-- **C4, counterexample.**  The executor never consults the breaker: a
plan with an outage step against a tool that fails on every call yields
the same propagated exception on every invocation — also on the 6th and
7th consecutive call — never a skip with the
`{error: circuit_breaker_open}` envelope; and the process-wide
`tool_circuit_breaker` stays fresh and closed because no code path calls
`record_failure`. -/
theorem C4_counterexample :
    tool_node c4_env c4_state = .error "outage api down" ∧
    tool_circuit_breaker.failures = [] ∧
    tool_circuit_breaker.tripped_at = [] ∧
    tool_circuit_breaker.is_open 0 "outage_tool" = (false, tool_circuit_breaker) :=
  ⟨rfl, rfl, rfl, rfl⟩


/-- Helper: the only `logger.warning` of `run_outage_tool` is the
missing-arguments branch; reference resolution emits no warning. -/
theorem run_outage_warnings (rng : Rng) (st : RState) (out : Json × List String)
    (h : run_outage_tool rng st = .ok out) :
    out.2 = [] ∨ (out.2 = ["outage_tool_missing_args"] ∧
      out.1.lookup "active_alarms" = some (.arr [])) := by
  unfold run_outage_tool at h
  simp only [bind, Except.bind, pure, Except.pure] at h
  rcases e1 : (st.plan.getD (.obj [])).getD "steps" (.arr []) with _ | steps
  · rw [e1] at h; exact (Except.noConfusion h)
  rw [e1] at h; dsimp only at h
  rcases e2 : iterSteps steps with _ | stepList
  · rw [e2] at h; exact (Except.noConfusion h)
  rw [e2] at h; dsimp only at h
  rcases e3 : params_for_tool stepList "outage_tool" with _ | params
  · rw [e3] at h; exact (Except.noConfusion h)
  rw [e3] at h; dsimp only at h
  rcases e4 : params.getD "site_names" (.arr []) with _ | sn0
  · rw [e4] at h; exact (Except.noConfusion h)
  rw [e4] at h; dsimp only at h
  rcases e5 : params.getD "device_ids" (.arr []) with _ | dv0
  · rw [e5] at h; exact (Except.noConfusion h)
  rw [e5] at h; dsimp only at h
  rcases e6 : params.getD "circuit_ids" (.arr []) with _ | cv0
  · rw [e6] at h; exact (Except.noConfusion h)
  rw [e6] at h; dsimp only at h
  rcases e7 : resolve_outage_circuit_ids st cv0 with _ | cids
  · rw [e7] at h; exact (Except.noConfusion h)
  rw [e7] at h; dsimp only at h
  by_cases c1 : (!sn0.truthy && !(resolve_outage_device_ids dv0).truthy && !cids.truthy) = true
  · rw [if_pos c1] at h
    rcases e8 : (orEmptyObj st.ui_context).getD "selected_sites" (.arr []) with _ | sn1
    · rw [e8] at h; exact (Except.noConfusion h)
    rw [e8] at h; dsimp only at h
    by_cases c2 : (!sn1.truthy && !(resolve_outage_device_ids dv0).truthy && !cids.truthy) = true
    · rw [if_pos c2] at h
      injection h with h'
      right
      rw [← h']
      exact ⟨rfl, rfl⟩
    · rw [if_neg c2] at h
      rcases e9 : pyIter cids with _ | cl
      · rw [e9] at h; exact (Except.noConfusion h)
      rw [e9] at h; dsimp only at h
      rcases e10 : pyIter (resolve_outage_device_ids dv0) with _ | dl
      · rw [e10] at h; exact (Except.noConfusion h)
      rw [e10] at h; dsimp only at h
      rcases e11 : pyIter sn1 with _ | sl
      · rw [e11] at h; exact (Except.noConfusion h)
      rw [e11] at h; dsimp only at h
      injection h with h'
      left
      rw [← h']
  · rw [if_neg c1] at h
    by_cases c2 : (!sn0.truthy && !(resolve_outage_device_ids dv0).truthy && !cids.truthy) = true
    · exact absurd c2 c1
    · rw [if_neg c2] at h
      rcases e9 : pyIter cids with _ | cl
      · rw [e9] at h; exact (Except.noConfusion h)
      rw [e9] at h; dsimp only at h
      rcases e10 : pyIter (resolve_outage_device_ids dv0) with _ | dl
      · rw [e10] at h; exact (Except.noConfusion h)
      rw [e10] at h; dsimp only at h
      rcases e11 : pyIter sn0 with _ | sl
      · rw [e11] at h; exact (Except.noConfusion h)
      rw [e11] at h; dsimp only at h
      injection h with h'
      left
      rw [← h']


/-- **C5, amended.**  `$ref` tokens are resolved inside the consuming
adapter from fixed state slots, ignoring the token's step id and field
name: the outage tool replaces a `$ref` `circuit_ids` with the truthy
`circuit_id`s of `state["inventory_data"]["circuits"]` and a `$ref`
`device_ids` with the empty list; the inventory tool replaces a `$ref`
`device_ids` with the deduplicated union of the hops of
`state["topology_data"]["paths"]` and a `$ref` `circuit_ids` with the
empty list.  No warning is emitted for an unresolved reference (the
outage tool's only warning is its missing-arguments branch), and the
step proceeds. -/
theorem C5_amended :
    (∀ st s cs ids, pyStartsWith s "$ref" = true →
      (orEmptyObj st.inventory_data).getD "circuits" (.arr []) = .ok (.arr cs) →
      cs.mapM (fun c => c.getN "circuit_id") = .ok ids →
      resolve_outage_circuit_ids st (.str s) = .ok (.arr (ids.filter (·.truthy)))) ∧
    (∀ s, pyStartsWith s "$ref" = true →
      resolve_outage_device_ids (.str s) = .arr []) ∧
    (∀ st s ps hopss devs, pyStartsWith s "$ref" = true →
      (orEmptyObj st.topology_data).getD "paths" (.arr []) = .ok (.arr ps) →
      ps.mapM (fun p => do pyIter (← p.getD "hops" (.arr []))) = .ok hopss →
      pyDedup hopss.flatten = .ok devs →
      resolve_inventory_device_ids st (.str s) = .ok (.arr devs)) ∧
    (∀ s, pyStartsWith s "$ref" = true →
      resolve_inventory_circuit_ids (.str s) = .arr []) ∧
    (∀ rng st out, run_outage_tool rng st = .ok out →
      out.2 = [] ∨ (out.2 = ["outage_tool_missing_args"] ∧
        out.1.lookup "active_alarms" = some (.arr []))) := by
  refine ⟨?_, ?_, ?_, ?_, run_outage_warnings⟩
  · intro st s cs ids h1 h2 h3
    unfold resolve_outage_circuit_ids
    simp only [h1, if_true, bind, Except.bind, h2, pure, Except.pure]
    rw [show pyIter (Json.arr cs) = .ok cs from rfl]
    dsimp only
    rw [h3]
  · intro s h1
    unfold resolve_outage_device_ids
    simp [h1]
  · intro st s ps hopss devs h1 h2 h3 h4
    unfold resolve_inventory_device_ids
    simp only [h1, if_true, bind, Except.bind, h2, pure, Except.pure]
    rw [show pyIter (Json.arr ps) = .ok ps from rfl]
    dsimp only
    simp only [bind, Except.bind] at h3
    rw [h3]
    dsimp only
    rw [h4]
  · intro s h1
    unfold resolve_inventory_circuit_ids
    simp [h1]


/-- **C5, counterexample.**  With `circuit_ids = "$ref:step_99.output.nonexistent"`
and no step `step_99` in the plan, the token is replaced by the
(non-empty) circuit ids of the inventory slot — not by the named step's
output field, and not by an empty result — and no warning is emitted;
so neither disjunct of the claim holds. -/
theorem C5_counterexample :
    resolve_outage_circuit_ids c5_state (.str "$ref:step_99.output.nonexistent") =
      .ok (.arr [.str "C-1"]) ∧
    (Json.arr [.str "C-1"]).truthy = true ∧
    outWarnings (run_outage_tool c5_rng c5_state) = some [] ∧
    outCircuitsChecked (run_outage_tool c5_rng c5_state) = some (.num 1) ∧
    stepIds (c5_state.plan.getD (.obj [])) = ["s1"] ∧
    "step_99" ∉ stepIds (c5_state.plan.getD (.obj [])) :=
  ⟨rfl, rfl, rfl, rfl, rfl, by decide⟩

/-- Witness for `C5_amended` at concrete inputs. -/
theorem C5_amended_witness :
    resolve_outage_circuit_ids c5_state (.str "$ref:step_99.output.nonexistent") =
      .ok (.arr ([Json.str "C-1"].filter (·.truthy))) ∧
    resolve_outage_device_ids (.str "$ref:a.output.b") = .arr [] ∧
    resolve_inventory_device_ids c5b_state (.str "$ref:a.output.b") =
      .ok (.arr [.str "H1", .str "H2"]) ∧
    resolve_inventory_circuit_ids (.str "$ref:a.output.b") = .arr [] ∧
    (c5_out.2 = [] ∨ (c5_out.2 = ["outage_tool_missing_args"] ∧
      c5_out.1.lookup "active_alarms" = some (.arr []))) := by
  have h := C5_amended
  refine ⟨?_, h.2.1 "$ref:a.output.b" rfl, ?_, h.2.2.2.1 "$ref:a.output.b" rfl, ?_⟩
  · exact h.1 c5_state "$ref:step_99.output.nonexistent"
      [.obj [("circuit_id", .str "C-1")]] [.str "C-1"] rfl rfl rfl
  · exact h.2.2.1 c5b_state "$ref:a.output.b"
      [.obj [("hops", .arr [.str "H1", .str "H2"])], .obj [("hops", .arr [.str "H2"])]]
      [[.str "H1", .str "H2"], [.str "H2"]] [.str "H1", .str "H2"] rfl rfl rfl rfl
  · exact h.2.2.2.2 c5_rng c5_state c5_out rfl

theorem digit_ne_dash (d : Char) (h : isDigitC d = true) : (d == '-') = false := by
  cases hd : (d == '-') with
  | false => rfl
  | true =>
      have hd' : d = '-' := eq_of_beq hd
      subst hd'
      exact absurd h (by decide)

theorem digit_not_sep (c : Char) (h : isDigitC c = true) : isSepC c = false := by
  simp [isDigitC] at h
  simp [isSepC]
  constructor
  · rintro rfl; exact absurd h.1 (by decide)
  · rintro rfl; exact absurd h.1 (by decide)

theorem lower_not_digit (ch : Char) (h : isLowerC ch = true) : isDigitC ch = false := by
  simp [isLowerC] at h
  simp [isDigitC]
  intro h0
  exact lt_of_lt_of_le (by decide) h.1

theorem lower_word (ch : Char) (h : isLowerC ch = true) : isWordC ch = true := by
  simp [isLowerC] at h
  simp [isWordC, isAlphaC]
  tauto

theorem lower_local (ch : Char) (h : isLowerC ch = true) : isLocalC ch = true := by
  simp [isLowerC] at h
  simp [isLocalC, isAlphaC]
  tauto

theorem lower_domain (ch : Char) (h : isLowerC ch = true) : isDomainC ch = true := by
  simp [isLowerC] at h
  simp [isDomainC, isAlphaC]
  tauto

theorem lower_tld (ch : Char) (h : isLowerC ch = true) : isTldC ch = true := by
  simp [isLowerC] at h
  simp [isTldC, isAlphaC]
  tauto

theorem lower_ne_dot (ch : Char) (h : isLowerC ch = true) : (ch == '.') = false := by
  cases hd : (ch == '.') with
  | false => rfl
  | true =>
      have hd' : ch = '.' := eq_of_beq hd
      subst hd'
      exact absurd h (by decide)

theorem containsSub_mem (hay needle : List Char) (h : containsSub hay needle = true) :
    ∀ x ∈ needle, x ∈ hay := by
  induction hay with
  | nil =>
      intro x hx
      have hne : needle = [] := by
        cases needle with
        | nil => rfl
        | cons a t => simp [containsSub, List.isPrefixOf] at h
      subst hne
      cases hx
  | cons c t ih =>
      intro x hx
      simp only [containsSub, Bool.or_eq_true] at h
      cases h with
      | inl hp =>
          exact (List.isPrefixOf_iff_prefix.mp hp).subset hx
      | inr hc => exact List.mem_cons_of_mem c (ih hc x hx)

theorem subAux_skip (m : Option Char → List Char → Option Nat) (repl : List Char) :
    ∀ (u : List Char) (p : Option Char), subAux m repl u.length p u = [] := by
  intro u
  induction u with
  | nil => intro p; rfl
  | cons d ds ih => intro p; exact ih (some d)

theorem subAux_full (m : Option Char → List Char → Option Nat) (repl : List Char)
    (c : Char) (cs : List Char) (h : m none (c :: cs) = some (cs.length + 1)) :
    subAux m repl 0 none (c :: cs) = repl := by
  rw [subAux, h]
  simp [subAux_skip]

theorem subAux_id (m : Option Char → List Char → Option Nat) (repl : List Char)
    (P : List Char → Bool) (hstep : ∀ c cs, P (c :: cs) = true → P cs = true)
    (hm : ∀ p u, P u = true → m p u = none) :
    ∀ (cs : List Char) (p : Option Char), P cs = true → subAux m repl 0 p cs = cs := by
  intro cs
  induction cs with
  | nil => intro p _; rfl
  | cons c cs ih =>
      intro p hP
      rw [subAux, hm p _ hP]
      exact congrArg (c :: ·) (ih (some c) (hstep c cs hP))

theorem ssnCheck_digits (u : List Char) (hu : u.all isDigitC = true) :
    ssnCheck u = false := by
  unfold ssnCheck
  split
  · rename_i a b c d e f g h i j k rest
    simp [List.all_cons] at hu
    simp [digit_ne_dash d hu.2.2.2.1]
  · rfl

theorem ssnCheck_nodigit (u : List Char) (hu : ∀ x ∈ u, isDigitC x = false) :
    ssnCheck u = false := by
  unfold ssnCheck
  split
  · rename_i a b c d e f g h i j k rest
    simp [hu a (by simp)]
  · rfl

theorem ssnMatcher_none (p : Option Char) (u : List Char) (h : ssnCheck u = false) :
    ssnMatcher p u = none := by
  simp [ssnMatcher, h]

theorem ssn_shape_matcher (a b c e f g h i j : Char)
    (ha : isDigitC a = true) (hb : isDigitC b = true) (hc : isDigitC c = true)
    (he : isDigitC e = true) (hf : isDigitC f = true)
    (hg : isDigitC g = true) (hh : isDigitC h = true) (hi : isDigitC i = true)
    (hj : isDigitC j = true) :
    ssnMatcher none [a, b, c, '-', e, f, '-', g, h, i, j] = some 11 := by
  simp [ssnMatcher, ssnCheck, boundaryL, boundaryR, ha, hb, hc, he, hf, hg, hh, hi, hj]

theorem ccCross_digits : ∀ (n : Nat) (u : List Char), u.all isDigitC = true →
    n ≤ u.length → ccCross n u = some (u.drop n) := by
  intro n
  induction n with
  | zero => intro u _ _; rfl
  | succ m ih =>
      intro u hu hn
      cases u with
      | nil => simp at hn
      | cons c r =>
          simp [List.all_cons] at hu
          have hdw : (c :: r).dropWhile isSepC = c :: r := by
            rw [List.dropWhile_cons, digit_not_sep c hu.1]
            simp
          rw [ccCross, hdw]
          simp only [hu.1, if_true]
          rw [ih r (by simp [List.all_eq_true]; exact hu.2) (by simpa using hn)]
          rfl

theorem ccExtend_digits : ∀ (k : Nat) (u : List Char), u.all isDigitC = true →
    u.length ≤ k → ccExtend k u = [] := by
  intro k
  induction k with
  | zero =>
      intro u _ h
      have : u = [] := List.eq_nil_of_length_eq_zero (Nat.le_zero.mp h)
      subst this; rfl
  | succ m ih =>
      intro u hu hl
      cases u with
      | nil => rfl
      | cons c r =>
          simp [List.all_cons] at hu
          rw [ccExtend]
          simp only [hu.1, if_true]
          exact ih r (by simp [List.all_eq_true]; exact hu.2) (by simpa using hl)

theorem cc_shape_matcher (c : Char) (rest : List Char)
    (hall : (c :: rest).all isDigitC = true)
    (hmin : 12 ≤ rest.length) (hmax : rest.length ≤ 15) :
    ccMatcher none (c :: rest) = some (rest.length + 1) := by
  simp [List.all_cons] at hall
  have hrest : rest.all isDigitC = true := by
    simp [List.all_eq_true]; exact hall.2
  have hcross : ccCross 12 rest = some (rest.drop 12) :=
    ccCross_digits 12 rest hrest hmin
  have hext : ccExtend 3 (rest.drop 12) = [] := by
    refine ccExtend_digits 3 (rest.drop 12) ?_ ?_
    · simp [List.all_eq_true]
      intro x hx
      exact hall.2 x (List.mem_of_mem_drop hx)
    · simp [List.length_drop]
      omega
  simp [ccMatcher, boundaryL, hall.1, hcross, hext, boundaryR]

theorem ccMatcher_nodigit (p : Option Char) (u : List Char)
    (hu : ∀ x ∈ u, isDigitC x = false) : ccMatcher p u = none := by
  unfold ccMatcher
  cases u with
  | nil => split <;> rfl
  | cons c r =>
      split
      · rfl
      · simp [hu c (by simp)]

theorem takeWhile_app (p : Char → Bool) : ∀ (a : List Char) (x : Char) (r : List Char),
    a.all p = true → p x = false → (a ++ x :: r).takeWhile p = a := by
  intro a
  induction a with
  | nil => intro x r _ hx; simp [List.takeWhile_cons, hx]
  | cons y ys ih =>
      intro x r ha hx
      simp [List.all_cons] at ha
      rw [List.cons_append, List.takeWhile_cons, ha.1]
      simp only [if_true]
      rw [ih x r (by simp [List.all_eq_true]; exact ha.2) hx]

theorem takeWhile_all (p : Char → Bool) : ∀ (u : List Char),
    u.all p = true → u.takeWhile p = u := by
  intro u
  induction u with
  | nil => intro _; rfl
  | cons y ys ih =>
      intro hu
      simp [List.all_cons] at hu
      rw [List.takeWhile_cons, hu.1]
      simp only [if_true]
      rw [ih (by simp [List.all_eq_true]; exact hu.2)]

theorem noDotsNoSplit : ∀ (u : List Char) (hp : Bool), u.all isLowerC = true →
    dSplit hp u = none := by
  intro u
  induction u with
  | nil => intro hp _; rfl
  | cons ch r ih =>
      intro hp hu
      simp [List.all_cons] at hu
      rw [dSplit, ih true (by simp [List.all_eq_true]; exact hu.2)]
      simp [lower_ne_dot ch hu.1]

theorem tldTry_full (run : List Char) (h2 : 2 ≤ run.length)
    (hw : run.all isLowerC = true) :
    tldTry run [] run.length = some run.length := by
  obtain ⟨len, hlen⟩ : ∃ len, run.length = len + 1 := ⟨run.length - 1, by omega⟩
  rw [hlen, tldTry]
  rw [if_neg (by omega)]
  have hlt : len < run.length := by omega
  rw [List.getElem?_eq_getElem hlt]
  have hdrop : run.drop (len + 1) = [] := by
    apply List.drop_eq_nil_of_le
    omega
  simp only [hdrop]
  have hword : isWordC (run[len]) = true := by
    apply lower_word
    simp [List.all_eq_true] at hw
    exact hw (run.get ⟨len, hlt⟩) (List.getElem_mem hlt)
  simp [boundaryMid, hword]

theorem dSplit_app (c : List Char) (hc : c.all isLowerC = true) (hc2 : 2 ≤ c.length) :
    ∀ (b : List Char) (hp : Bool), b.all isLowerC = true → (hp = true ∨ b ≠ []) →
    dSplit hp (b ++ '.' :: c) = some (b.length + 1 + c.length) := by
  intro b
  induction b with
  | nil =>
      intro hp _ hor
      have hp' : hp = true := by
        rcases hor with h | h
        · exact h
        · exact absurd rfl h
      subst hp'
      rw [List.nil_append, dSplit, noDotsNoSplit c true hc]
      have htld : c.takeWhile isTldC = c := by
        apply takeWhile_all
        simp [List.all_eq_true] at hc ⊢
        intro x hx
        exact lower_tld x (hc x hx)
      simp only [Option.map_none, htld, List.drop_length]
      rw [tldTry_full c hc2 hc]
      simp
  | cons x b' ih =>
      intro hp hb hor
      simp [List.all_cons] at hb
      rw [List.cons_append, dSplit,
        ih true (by simp [List.all_eq_true]; exact hb.2) (Or.inl rfl)]
      simp only [lower_domain x hb.1, if_true, Option.map_some]
      show some (b'.length + 1 + c.length + 1) = some ((x :: b').length + 1 + c.length)
      simp only [List.length_cons]
      exact congrArg some (by omega)

theorem emailMatcher_cons (p : Option Char) (x : Char) (xs : List Char) :
    emailMatcher p (x :: xs) =
      (if !boundaryMid x p then none
      else
        let localRun := (x :: xs).takeWhile isLocalC
        if localRun.isEmpty then none
        else
          match (x :: xs).drop localRun.length with
          | c :: rest =>
              if c == '@' then
                (dSplit false rest).map (fun len => localRun.length + 1 + len)
              else none
          | [] => none) := rfl

theorem email_shape_matcher (a b c : List Char)
    (ha0 : a ≠ []) (hb0 : b ≠ []) (hc2 : 2 ≤ c.length)
    (ha : a.all isLowerC = true) (hb : b.all isLowerC = true)
    (hc : c.all isLowerC = true) :
    emailMatcher none (emailOf a b c) = some (emailOf a b c).length := by
  cases a with
  | nil => exact absurd rfl ha0
  | cons a0 a' =>
      simp [List.all_cons] at ha
      have hbm : boundaryMid a0 none = true := by
        simp [boundaryMid, lower_word a0 ha.1]
      have hloc : (a0 :: (a' ++ '@' :: (b ++ '.' :: c))).takeWhile isLocalC
          = a0 :: a' := by
        have := takeWhile_app isLocalC (a0 :: a') '@' (b ++ '.' :: c)
          (by
            simp [List.all_eq_true]
            refine ⟨lower_local a0 ha.1, ?_⟩
            intro x hx
            exact lower_local x (ha.2 x hx))
          (by decide)
        simpa using this
      have hdrop : (a0 :: (a' ++ '@' :: (b ++ '.' :: c))).drop (a0 :: a').length
          = '@' :: (b ++ '.' :: c) := by
        simp only [List.length_cons, List.drop_succ_cons]
        exact List.drop_left a' ('@' :: (b ++ '.' :: c))
      have hshape : emailOf (a0 :: a') b c = a0 :: (a' ++ '@' :: (b ++ '.' :: c)) := by
        simp [emailOf]
      rw [hshape, emailMatcher_cons]
      simp only [hbm, Bool.not_true, Bool.false_eq_true, if_false, hloc, hdrop,
        List.isEmpty_cons]
      have h4 : ('@' == '@') = true := by decide
      rw [if_pos h4]
      rw [dSplit_app c hc hc2 b false hb (Or.inr hb0)]
      simp only [Option.map, List.length_cons, List.length_append]
      exact congrArg some (by omega)

theorem scrub_ssnRepl : injectionScrub ssnRepl = ssnRepl := by decide

theorem scrub_ccRepl : injectionScrub ccRepl = ccRepl := by decide

theorem scrub_emailRepl : injectionScrub emailRepl = emailRepl := by decide

theorem ssn_redact (t : List Char) (ht : ssnShape t = true) :
    redactPII t = ssnRepl ∧ '-' ∈ t := by
  rcases t with _ | ⟨a, t⟩
  · simp [ssnShape] at ht
  rcases t with _ | ⟨b, t⟩
  · simp [ssnShape] at ht
  rcases t with _ | ⟨c, t⟩
  · simp [ssnShape] at ht
  rcases t with _ | ⟨d, t⟩
  · simp [ssnShape] at ht
  rcases t with _ | ⟨e, t⟩
  · simp [ssnShape] at ht
  rcases t with _ | ⟨f, t⟩
  · simp [ssnShape] at ht
  rcases t with _ | ⟨g, t⟩
  · simp [ssnShape] at ht
  rcases t with _ | ⟨h, t⟩
  · simp [ssnShape] at ht
  rcases t with _ | ⟨i, t⟩
  · simp [ssnShape] at ht
  rcases t with _ | ⟨j, t⟩
  · simp [ssnShape] at ht
  rcases t with _ | ⟨k, t⟩
  · simp [ssnShape] at ht
  rcases t with _ | ⟨z, t⟩
  swap
  · simp [ssnShape] at ht
  simp [ssnShape] at ht
  obtain ⟨⟨⟨⟨⟨⟨⟨⟨⟨⟨ha, hb⟩, hc⟩, hd⟩, he⟩, hf⟩, hg⟩, hh⟩, hi⟩, hj⟩, hk⟩ := ht
  subst hd
  subst hg
  constructor
  · show subAux emailMatcher emailRepl 0 none
      (subAux ccMatcher ccRepl 0 none
        (subAux ssnMatcher ssnRepl 0 none [a,b,c,'-',e,f,'-',h,i,j,k])) = ssnRepl
    rw [subAux_full ssnMatcher ssnRepl a [b,c,'-',e,f,'-',h,i,j,k]
      (ssn_shape_matcher a b c e f h i j k ha hb hc he hf hh hi hj hk)]
    decide
  · simp

theorem cc_redact (t : List Char) (ht : ccShape t = true) :
    redactPII t = ccRepl ∧ ∃ x ∈ t, isDigitC x = true := by
  simp only [ccShape, Bool.and_eq_true, decide_eq_true_eq] at ht
  obtain ⟨⟨hall, hmin⟩, hmax⟩ := ht
  rcases t with _ | ⟨c, rest⟩
  · simp at hmin
  have hstep : ∀ (x : Char) (xs : List Char),
      (x :: xs).all isDigitC = true → xs.all isDigitC = true := by
    intro x xs hx
    simp [List.all_cons] at hx
    simp [List.all_eq_true]
    exact hx.2
  have hm1 : ∀ (p : Option Char) (u : List Char), u.all isDigitC = true →
      ssnMatcher p u = none := by
    intro p u hu
    exact ssnMatcher_none p u (ssnCheck_digits u hu)
  constructor
  · show subAux emailMatcher emailRepl 0 none
      (subAux ccMatcher ccRepl 0 none
        (subAux ssnMatcher ssnRepl 0 none (c :: rest))) = ccRepl
    rw [subAux_id ssnMatcher ssnRepl (fun u => u.all isDigitC) hstep hm1
      (c :: rest) none hall]
    rw [subAux_full ccMatcher ccRepl c rest
      (cc_shape_matcher c rest hall (by simp at hmin; omega) (by simp at hmax; omega))]
    decide
  · refine ⟨c, by simp, ?_⟩
    simp [List.all_cons] at hall
    exact hall.1

theorem emailClass_all (a b c : List Char)
    (ha : a.all isLowerC = true) (hb : b.all isLowerC = true)
    (hc : c.all isLowerC = true) :
    (emailOf a b c).all (fun ch => isLowerC ch || ch == '@' || ch == '.') = true := by
  simp [emailOf, List.all_append, List.all_cons, List.all_eq_true] at *
  constructor
  · intro x hx
    simp [ha x hx]
  constructor
  · intro x hx
    simp [hb x hx]
  · intro x hx
    simp [hc x hx]

theorem emailClass_nodigit (u : List Char)
    (hu : u.all (fun ch => isLowerC ch || ch == '@' || ch == '.') = true) :
    ∀ x ∈ u, isDigitC x = false := by
  simp [List.all_eq_true] at hu
  intro x hx
  rcases hu x hx with (hl | rfl) | rfl
  · exact lower_not_digit x hl
  · decide
  · decide

theorem email_redact (a b c : List Char)
    (ha0 : a ≠ []) (hb0 : b ≠ []) (hc2 : 2 ≤ c.length)
    (ha : a.all isLowerC = true) (hb : b.all isLowerC = true)
    (hc : c.all isLowerC = true) :
    redactPII (emailOf a b c) = emailRepl ∧ '@' ∈ emailOf a b c := by
  have hclass := emailClass_all a b c ha hb hc
  have hstep : ∀ (x : Char) (xs : List Char),
      (x :: xs).all (fun ch => isLowerC ch || ch == '@' || ch == '.') = true →
      xs.all (fun ch => isLowerC ch || ch == '@' || ch == '.') = true := by
    intro x xs hx
    simp [List.all_cons] at hx
    simp [List.all_eq_true]
    intro z hz
    have := hx.2 z hz
    simpa using this
  have hm1 : ∀ (p : Option Char) (u : List Char),
      u.all (fun ch => isLowerC ch || ch == '@' || ch == '.') = true →
      ssnMatcher p u = none := by
    intro p u hu
    exact ssnMatcher_none p u (ssnCheck_nodigit u (emailClass_nodigit u hu))
  have hm2 : ∀ (p : Option Char) (u : List Char),
      u.all (fun ch => isLowerC ch || ch == '@' || ch == '.') = true →
      ccMatcher p u = none := by
    intro p u hu
    exact ccMatcher_nodigit p u (emailClass_nodigit u hu)
  refine ⟨?_, by simp [emailOf]⟩
  cases a with
  | nil => exact absurd rfl ha0
  | cons a0 a' =>
      have hsm := email_shape_matcher (a0 :: a') b c ha0 hb0 hc2 ha hb hc
      have hshape : emailOf (a0 :: a') b c = a0 :: (a' ++ '@' :: (b ++ '.' :: c)) := by
        simp [emailOf]
      rw [hshape] at hsm hclass
      simp only [List.length_cons] at hsm
      show subAux emailMatcher emailRepl 0 none
        (subAux ccMatcher ccRepl 0 none
          (subAux ssnMatcher ssnRepl 0 none (emailOf (a0 :: a') b c))) = emailRepl
      rw [hshape]
      rw [subAux_id ssnMatcher ssnRepl _ hstep hm1 _ none hclass]
      rw [subAux_id ccMatcher ccRepl _ hstep hm2 _ none hclass]
      exact subAux_full emailMatcher emailRepl a0 _ hsm

/-- **C8, counterexample.**  The input `123-45-6789 and 9123-45-67890`
contains the SSN token `123-45-6789`: the pattern matches it at position
0 (leftmost, length 11) and the guardrails replace that occurrence, but
the digits `123-45-6789` of the second blob survive redaction (the
`9` prefix and trailing `0` leave no word boundary for the pattern), so
the exact matched token string *does* appear in the message handed to
the model, refuting the claim. -/
theorem C8_counterexample :
    ssnMatcher none c8_input = some 11 ∧
    c8_input.take 11 = c8_token ∧
    apply_input_guardrails [Msg.human c8_input] {pii_redaction := true} =
      [Msg.human ("[REDACTED_SSN] and 9123-45-67890".data)] ∧
    containsSub ("[REDACTED_SSN] and 9123-45-67890".data) c8_token = true := by
  refine ⟨by decide, by decide, ?_, by decide⟩
  decide

/-- **C8, amended.**  With `pii_redaction` enabled every human message
is rewritten to `injectionScrub (redactPII content)` (others pass
through unchanged); a human message that is exactly a supported SSN,
credit-card, or simple e-mail token is replaced by the corresponding
`[REDACTED_*]` marker and the token never appears in the message handed
to the model; but in general only the *matched occurrences* are
replaced, and the token characters may survive elsewhere (see the
counterexample). -/
theorem C8_amended (msgs : List Msg) (config : GuardrailConfig)
    (hp : config.pii_redaction = true) :
    (apply_input_guardrails msgs config =
      msgs.map (fun m => match m with
        | .human c => .human (injectionScrub (redactPII c))
        | m => m)) ∧
    (∀ t : List Char, ssnShape t = true →
      injectionScrub (redactPII t) = ssnRepl ∧
      containsSub (injectionScrub (redactPII t)) t = false) ∧
    (∀ t : List Char, ccShape t = true →
      injectionScrub (redactPII t) = ccRepl ∧
      containsSub (injectionScrub (redactPII t)) t = false) ∧
    (∀ a b c : List Char, a ≠ [] → b ≠ [] → 2 ≤ c.length →
      a.all isLowerC = true → b.all isLowerC = true → c.all isLowerC = true →
      injectionScrub (redactPII (emailOf a b c)) = emailRepl ∧
      containsSub (injectionScrub (redactPII (emailOf a b c))) (emailOf a b c)
        = false) := by
  refine ⟨by simp [apply_input_guardrails, hp], ?_, ?_, ?_⟩
  · intro t ht
    obtain ⟨hred, hdash⟩ := ssn_redact t ht
    rw [hred, scrub_ssnRepl]
    refine ⟨rfl, ?_⟩
    cases hcon : containsSub ssnRepl t with
    | false => rfl
    | true =>
        have := containsSub_mem ssnRepl t hcon '-' hdash
        exact absurd this (by decide)
  · intro t ht
    obtain ⟨hred, x, hx, hdig⟩ := cc_redact t ht
    rw [hred, scrub_ccRepl]
    refine ⟨rfl, ?_⟩
    cases hcon : containsSub ccRepl t with
    | false => rfl
    | true =>
        have hmem := containsSub_mem ccRepl t hcon x hx
        have : isDigitC x = false := by
          have hall : ∀ y ∈ ccRepl, isDigitC y = false := by decide
          exact hall x hmem
        rw [this] at hdig
        exact Bool.noConfusion hdig
  · intro a b c ha0 hb0 hc2 ha hb hc
    obtain ⟨hred, hat⟩ := email_redact a b c ha0 hb0 hc2 ha hb hc
    rw [hred, scrub_emailRepl]
    refine ⟨rfl, ?_⟩
    cases hcon : containsSub emailRepl (emailOf a b c) with
    | false => rfl
    | true =>
        have := containsSub_mem emailRepl (emailOf a b c) hcon '@' hat
        exact absurd this (by decide)

/-- **C8, witness.**  The amended theorem applied to a concrete message
list and the concrete tokens `123-45-6789`, `4111111111111111` and
`john@example.com`. -/
theorem C8_amended_witness :
    apply_input_guardrails
        [Msg.human "123-45-6789".data, Msg.ai "ack".data] {pii_redaction := true} =
      [Msg.human "[REDACTED_SSN]".data, Msg.ai "ack".data] ∧
    containsSub (injectionScrub (redactPII "4111111111111111".data))
      "4111111111111111".data = false ∧
    containsSub (injectionScrub (redactPII (emailOf "john".data "example".data "com".data)))
      (emailOf "john".data "example".data "com".data) = false := by
  obtain ⟨h1, h2, h3, h4⟩ :=
    C8_amended [Msg.human "123-45-6789".data, Msg.ai "ack".data]
      {pii_redaction := true} rfl
  refine ⟨?_, (h3 "4111111111111111".data (by decide)).2,
    (h4 "john".data "example".data "com".data
      (by decide) (by decide) (by decide) (by decide) (by decide) (by decide)).2⟩
  rw [h1]
  decide

end TopologyAgent
